import Mathlib

/-!
Verification of the psd Go library (github.com/Mark24Code/psd).

This file shallowly embeds the parts of the library that the verified
properties are about: the RLE channel decompressor (layer.go,
decompressRLE), the per-channel cursor resynchronisation
(layer.go, parseChannelData), the layer tree builder
(image.go, buildTree), the bottom-up dimension recomputation
(renderer.go, UpdateDimensions), the layer raster assembly
(layer.go, ToImage), the per-pixel compositing of renderLayer
(renderer.go), the blend-mode dispatcher (header.go, GetBlendFunc),
the descriptor value dispatcher (descriptor.go, parseItem), and the
document header parser (header.go, Header.Parse).

Bytes are modelled as Nat (values 0..255 in any real input); Go integer
conversions such as uint8(x) are written out explicitly as x % 256 and
x >> 8 as x / 256 wherever the Go source performs them.
-/

namespace Psd

/-! ## RLE (PackBits) channel decompression — layer.go, decompressRLE

The Go function decodes one channel plane.  The output buffer is
allocated zero-initialised at width*height and written through
bounds-checked stores; reads from the compressed input are also
bounds-checked.  The helpers below mirror the loops of the source
one-to-one:
  * readByteCounts — the initial loop reading one 2-byte big-endian
    count per scanline, stopping early if the input runs out;
  * copyLiteral    — the inner literal-copy loop (control byte < 128);
  * writeRepeat    — the inner repeat loop (control byte > 128);
  * decodeScanline — the per-scanline control-byte loop;
  * decodeRows     — the outer per-row loop.
-/

/-- The byte-count-reading loop of decompressRLE: for i < height while
offset+1 < len(data), read a big-endian 16-bit count and advance by 2;
counts not read stay 0.  Returns the counts and the final offset. -/
def readByteCounts (data : List Nat) : Nat → Nat → List Nat × Nat
  | 0, offset => ([], offset)
  | h + 1, offset =>
    if offset + 1 < data.length then
      let bc := data.getD offset 0 * 256 + data.getD (offset + 1) 0
      let r := readByteCounts data h (offset + 2)
      (bc :: r.1, r.2)
    else (List.replicate (h + 1) 0, offset)

/-- The literal-copy inner loop of decompressRLE: copy up to k bytes
from data[offset..] to result[pos..], stopping when pos reaches endPos
or the input is exhausted.  Returns (offset, pos, result). -/
def copyLiteral (data : List Nat) (endPos : Nat) :
    Nat → Nat → Nat → List Nat → Nat × Nat × List Nat
  | 0, offset, pos, result => (offset, pos, result)
  | k + 1, offset, pos, result =>
    if pos < endPos ∧ offset < data.length then
      copyLiteral data endPos k (offset + 1) (pos + 1)
        (result.set pos (data.getD offset 0))
    else (offset, pos, result)

/-- The repeat inner loop of decompressRLE: write v into
result[pos..] up to k times, stopping when pos reaches endPos. -/
def writeRepeat (endPos : Nat) : Nat → Nat → Nat → List Nat → Nat × List Nat
  | 0, _, pos, result => (pos, result)
  | k + 1, v, pos, result =>
    if pos < endPos then writeRepeat endPos k v (pos + 1) (result.set pos v)
    else (pos, result)

theorem copyLiteral_offset_le (data : List Nat) (endPos : Nat) :
    ∀ (k offset pos : Nat) (result : List Nat),
      offset ≤ (copyLiteral data endPos k offset pos result).1 := by
  intro k
  induction k with
  | zero => intro offset pos result; simp [copyLiteral]
  | succ k ih =>
    intro offset pos result
    simp only [copyLiteral]
    split
    · exact le_trans (Nat.le_succ offset) (ih (offset + 1) (pos + 1) _)
    · exact le_refl _

/-- The per-scanline control-byte loop of decompressRLE: while
offset < scanlineEnd and pos < endPos, read a control byte n and apply
the literal / repeat / no-op case. -/
def decodeScanline (data : List Nat) (scanlineEnd endPos : Nat)
    (offset pos : Nat) (result : List Nat) : Nat × Nat × List Nat :=
  if offset < scanlineEnd ∧ pos < endPos then
    if data.length ≤ offset then (offset, pos, result)
    else
      let n := data.getD offset 0
      if n < 128 then
        let r := copyLiteral data endPos (n + 1) (offset + 1) pos result
        decodeScanline data scanlineEnd endPos r.1 r.2.1 r.2.2
      else if 128 < n then
        if offset + 1 < data.length then
          let v := data.getD (offset + 1) 0
          let r := writeRepeat endPos (257 - n) v pos result
          decodeScanline data scanlineEnd endPos (offset + 2) r.1 r.2
        else
          decodeScanline data scanlineEnd endPos (offset + 1) pos result
      else
        decodeScanline data scanlineEnd endPos (offset + 1) pos result
  else (offset, pos, result)
termination_by scanlineEnd - offset
decreasing_by
  all_goals
    (have h1 :=
      copyLiteral_offset_le data endPos (data.getD offset 0 + 1)
        (offset + 1) pos result
     omega)

/-- The outer per-row loop of decompressRLE: process one scanline per
byte count; a zero count leaves the scanline untouched; after decoding,
pos is advanced to the start of the next scanline if it fell short. -/
def decodeRows (data : List Nat) (width : Nat) :
    List Nat → Nat → Nat → List Nat → List Nat
  | [], _, _, result => result
  | bc :: rest, offset, pos, result =>
    if bc = 0 then decodeRows data width rest offset (pos + width) result
    else
      let endPos := pos + width
      let scanlineEnd := min (offset + bc) data.length
      let r := decodeScanline data scanlineEnd endPos offset pos result
      let pos2 := if r.2.1 < endPos then endPos else r.2.1
      decodeRows data width rest r.1 pos2 r.2.2

/-- decompressRLE (layer.go:597-671).  The Go function returns
([]byte, error); no code path produces a non-nil error, which the
Except codomain records faithfully. -/
def decompressRLE (data : List Nat) (width height : Nat) :
    Except String (List Nat) :=
  if width = 0 ∨ height = 0 then .ok []
  else
    let r := readByteCounts data height 0
    let result := List.replicate (width * height) 0
    .ok (decodeRows data width r.1 r.2 0 result)

/-! Length preservation: every write is a List.set, which never changes
the buffer length. -/

theorem copyLiteral_length (data : List Nat) (endPos : Nat) :
    ∀ (k offset pos : Nat) (result : List Nat),
      (copyLiteral data endPos k offset pos result).2.2.length = result.length := by
  intro k
  induction k with
  | zero => intro offset pos result; simp [copyLiteral]
  | succ k ih =>
    intro offset pos result
    simp only [copyLiteral]
    split
    · rw [ih]; simp
    · rfl

theorem writeRepeat_length (endPos : Nat) :
    ∀ (k v pos : Nat) (result : List Nat),
      (writeRepeat endPos k v pos result).2.length = result.length := by
  intro k
  induction k with
  | zero => intro v pos result; simp [writeRepeat]
  | succ k ih =>
    intro v pos result
    simp only [writeRepeat]
    split
    · rw [ih]; simp
    · rfl

theorem decodeScanline_length (data : List Nat) (scanlineEnd endPos : Nat)
    (offset pos : Nat) (result : List Nat) :
    (decodeScanline data scanlineEnd endPos offset pos result).2.2.length
      = result.length := by
  induction offset, pos, result using
      (decodeScanline.induct data scanlineEnd endPos) with
  | case1 offset pos result hlt hle => simp [decodeScanline, hlt, hle]
  | case2 offset pos result hlt hle n hn r ih =>
    rw [decodeScanline]
    simp only [if_pos hlt, if_neg hle, if_pos hn]
    rw [ih, copyLiteral_length]
  | case3 offset pos result hlt hle n hn hn2 hoff v r ih =>
    rw [decodeScanline]
    simp only [if_pos hlt, if_neg hle, if_neg hn, if_pos hn2, if_pos hoff]
    rw [ih, writeRepeat_length]
  | case4 offset pos result hlt hle n hn hn2 hoff ih =>
    rw [decodeScanline]
    simp only [if_pos hlt, if_neg hle, if_neg hn, if_pos hn2, if_neg hoff]
    exact ih
  | case5 offset pos result hlt hle n hn hn2 ih =>
    rw [decodeScanline]
    simp only [if_pos hlt, if_neg hle, if_neg hn, if_neg hn2]
    exact ih
  | case6 offset pos result h => simp [decodeScanline, h]

theorem decodeRows_length (data : List Nat) (width : Nat) :
    ∀ (bcs : List Nat) (offset pos : Nat) (result : List Nat),
      (decodeRows data width bcs offset pos result).length = result.length := by
  intro bcs
  induction bcs with
  | nil => intro offset pos result; simp [decodeRows]
  | cons bc rest ih =>
    intro offset pos result
    simp only [decodeRows]
    split
    · exact ih _ _ _
    · rw [ih, decodeScanline_length]

/-- Sequential in-place overwrite: write the bytes xs into l starting
at position pos.  Used to state the byte-exact content of the literal
and repeat runs. -/
def listOverwrite (l : List Nat) (pos : Nat) : List Nat → List Nat
  | [] => l
  | x :: xs => listOverwrite (l.set pos x) (pos + 1) xs

theorem copyLiteral_spec (data : List Nat) (endPos : Nat) :
    ∀ (k offset pos : Nat) (result : List Nat),
      pos + k ≤ endPos → offset + k ≤ data.length →
      copyLiteral data endPos k offset pos result
        = (offset + k, pos + k,
           listOverwrite result pos ((data.drop offset).take k)) := by
  intro k
  induction k with
  | zero => intro offset pos result _ _; simp [copyLiteral, listOverwrite]
  | succ k ih =>
    intro offset pos result hpos hoff
    have h1 : pos < endPos := by omega
    have h2 : offset < data.length := by omega
    rw [copyLiteral, if_pos ⟨h1, h2⟩,
      ih (offset + 1) (pos + 1) _ (by omega) (by omega)]
    have hdrop : data.drop offset
        = data.getD offset 0 :: data.drop (offset + 1) := by
      rw [List.getD_eq_getElem data 0 h2]
      exact List.drop_eq_getElem_cons h2
    rw [hdrop]
    simp only [List.take_succ_cons, listOverwrite, Prod.mk.injEq]
    exact ⟨by omega, by omega, trivial⟩

theorem writeRepeat_spec (endPos : Nat) :
    ∀ (k v pos : Nat) (result : List Nat),
      pos + k ≤ endPos →
      writeRepeat endPos k v pos result
        = (pos + k, listOverwrite result pos (List.replicate k v)) := by
  intro k
  induction k with
  | zero => intro v pos result _; simp [writeRepeat, listOverwrite]
  | succ k ih =>
    intro v pos result hpos
    rw [writeRepeat, if_pos (by omega), ih v (pos + 1) _ (by omega)]
    simp only [List.replicate_succ, listOverwrite, Prod.mk.injEq]
    exact ⟨by omega, trivial⟩

/-! One-step behaviour of the scanline loop at each of the three
control-byte cases, exactly as the source performs them. -/

theorem decodeScanline_literal_step (data : List Nat)
    (scanlineEnd endPos offset pos n : Nat) (result : List Nat)
    (hlt : offset < scanlineEnd) (hpos : pos < endPos)
    (hn : data.getD offset 0 = n) (hsmall : n < 128)
    (hfitOut : pos + (n + 1) ≤ endPos)
    (hfitIn : offset + 1 + (n + 1) ≤ data.length) :
    decodeScanline data scanlineEnd endPos offset pos result
      = decodeScanline data scanlineEnd endPos
          (offset + 1 + (n + 1)) (pos + (n + 1))
          (listOverwrite result pos ((data.drop (offset + 1)).take (n + 1))) := by
  rw [decodeScanline, if_pos ⟨hlt, hpos⟩, if_neg (by omega)]
  rw [if_pos (show data.getD offset 0 < 128 by omega)]
  show decodeScanline data scanlineEnd endPos
      (copyLiteral data endPos (data.getD offset 0 + 1) (offset + 1) pos result).1
      (copyLiteral data endPos (data.getD offset 0 + 1) (offset + 1) pos result).2.1
      (copyLiteral data endPos (data.getD offset 0 + 1) (offset + 1) pos result).2.2
    = _
  rw [hn, copyLiteral_spec data endPos (n + 1) (offset + 1) pos result
    hfitOut hfitIn]

theorem decodeScanline_repeat_step (data : List Nat)
    (scanlineEnd endPos offset pos n : Nat) (result : List Nat)
    (hlt : offset < scanlineEnd) (hpos : pos < endPos)
    (hn : data.getD offset 0 = n) (hbig : 128 < n) (hbyte : n < 256)
    (hoff : offset + 1 < data.length)
    (hfitOut : pos + (257 - n) ≤ endPos) :
    decodeScanline data scanlineEnd endPos offset pos result
      = decodeScanline data scanlineEnd endPos (offset + 2)
          (pos + (257 - n))
          (listOverwrite result pos
            (List.replicate (257 - n) (data.getD (offset + 1) 0))) := by
  rw [decodeScanline, if_pos ⟨hlt, hpos⟩, if_neg (by omega)]
  rw [if_neg (by omega), if_pos (show 128 < data.getD offset 0 by omega),
    if_pos hoff]
  show decodeScanline data scanlineEnd endPos (offset + 2)
      (writeRepeat endPos (257 - data.getD offset 0)
        (data.getD (offset + 1) 0) pos result).1
      (writeRepeat endPos (257 - data.getD offset 0)
        (data.getD (offset + 1) 0) pos result).2
    = _
  rw [hn, writeRepeat_spec endPos (257 - n) (data.getD (offset + 1) 0)
    pos result hfitOut]

theorem decodeScanline_noop_step (data : List Nat)
    (scanlineEnd endPos offset pos : Nat) (result : List Nat)
    (hlt : offset < scanlineEnd) (hpos : pos < endPos)
    (hn : data.getD offset 0 = 128) :
    decodeScanline data scanlineEnd endPos offset pos result
      = decodeScanline data scanlineEnd endPos (offset + 1) pos result := by
  rw [decodeScanline, if_pos ⟨hlt, hpos⟩]
  rw [if_neg (by
    intro hcontra
    rw [List.getD_eq_default] at hn
    · omega
    · omega)]
  rw [if_neg (by omega), if_neg (by omega)]

theorem decompressRLE_length (data : List Nat) (width height : Nat) :
    ∃ out, decompressRLE data width height = .ok out ∧
      out.length = width * height := by
  unfold decompressRLE
  by_cases h : width = 0 ∨ height = 0
  · refine ⟨[], by rw [if_pos h], ?_⟩
    rcases h with h | h <;> simp [h]
  · rw [if_neg h]
    refine ⟨_, rfl, ?_⟩
    rw [decodeRows_length, List.length_replicate]

theorem decodeRows_zero_counts (data : List Nat) (width : Nat) :
    ∀ (k offset pos : Nat) (result : List Nat),
      decodeRows data width (List.replicate k 0) offset pos result = result := by
  intro k
  induction k with
  | zero => intro offset pos result; simp [decodeRows]
  | succ k ih =>
    intro offset pos result
    simp only [List.replicate_succ, decodeRows, if_pos rfl]
    exact ih _ _ _

theorem readByteCounts_nil (height offset : Nat) :
    readByteCounts [] height offset = (List.replicate height 0, offset) := by
  cases height with
  | zero => simp [readByteCounts]
  | succ h => simp [readByteCounts]

/-- Claim C1: for every channel compressed with RLE and any positive
width and height, decompressRLE returns (without error) a buffer of
exactly width*height bytes; the three control-byte cases behave as
specified (a byte n < 128 copies the next n+1 input bytes literally, a
byte n > 128 repeats the following byte 257-n times, n = 128 consumes
no data bytes and emits nothing); and the output buffer starts
zero-initialised, so positions no run writes to stay zero (witnessed by
the empty input, which decodes to the all-zero buffer). -/
theorem claim_C1_decompressRLE :
    (∀ (data : List Nat) (width height : Nat), 0 < width → 0 < height →
      ∃ out, decompressRLE data width height = .ok out ∧
        out.length = width * height)
    ∧ (∀ (data : List Nat) (scanlineEnd endPos offset pos n : Nat)
        (result : List Nat),
        offset < scanlineEnd → pos < endPos →
        data.getD offset 0 = n → n < 128 →
        pos + (n + 1) ≤ endPos → offset + 1 + (n + 1) ≤ data.length →
        decodeScanline data scanlineEnd endPos offset pos result
          = decodeScanline data scanlineEnd endPos
              (offset + 1 + (n + 1)) (pos + (n + 1))
              (listOverwrite result pos
                ((data.drop (offset + 1)).take (n + 1))))
    ∧ (∀ (data : List Nat) (scanlineEnd endPos offset pos n : Nat)
        (result : List Nat),
        offset < scanlineEnd → pos < endPos →
        data.getD offset 0 = n → 128 < n → n < 256 →
        offset + 1 < data.length → pos + (257 - n) ≤ endPos →
        decodeScanline data scanlineEnd endPos offset pos result
          = decodeScanline data scanlineEnd endPos (offset + 2)
              (pos + (257 - n))
              (listOverwrite result pos
                (List.replicate (257 - n) (data.getD (offset + 1) 0))))
    ∧ (∀ (data : List Nat) (scanlineEnd endPos offset pos : Nat)
        (result : List Nat),
        offset < scanlineEnd → pos < endPos →
        data.getD offset 0 = 128 →
        decodeScanline data scanlineEnd endPos offset pos result
          = decodeScanline data scanlineEnd endPos (offset + 1) pos result)
    ∧ (∀ (width height : Nat),
        decompressRLE [] width height
          = .ok (List.replicate (width * height) 0)) := by
  refine ⟨fun data w h _ _ => decompressRLE_length data w h,
    fun data se ep o p n r h1 h2 h3 h4 h5 h6 =>
      decodeScanline_literal_step data se ep o p n r h1 h2 h3 h4 h5 h6,
    fun data se ep o p n r h1 h2 h3 h4 h5 h6 h7 =>
      decodeScanline_repeat_step data se ep o p n r h1 h2 h3 h4 h5 h6 h7,
    fun data se ep o p r h1 h2 h3 =>
      decodeScanline_noop_step data se ep o p r h1 h2 h3,
    fun w h => ?_⟩
  unfold decompressRLE
  by_cases hz : w = 0 ∨ h = 0
  · rw [if_pos hz]
    have : w * h = 0 := by rcases hz with hz | hz <;> simp [hz]
    rw [this]
    rfl
  · rw [if_neg hz, readByteCounts_nil]
    show Except.ok (decodeRows [] w (List.replicate h 0) 0 0
      (List.replicate (w * h) 0)) = _
    rw [decodeRows_zero_counts]

theorem claim_C1_decompressRLE_witness :
    (∃ out, decompressRLE [0, 2, 253, 7] 4 1 = .ok out ∧
      out.length = 4 * 1)
    ∧ decodeScanline [2, 5, 6, 7] 4 3 0 0 [0, 0, 0]
        = decodeScanline [2, 5, 6, 7] 4 3 (0 + 1 + (2 + 1)) (0 + (2 + 1))
            (listOverwrite [0, 0, 0] 0 ((List.drop (0 + 1) [2, 5, 6, 7]).take (2 + 1)))
    ∧ decodeScanline [254, 9] 2 4 0 0 [0, 0, 0, 0]
        = decodeScanline [254, 9] 2 4 (0 + 2) (0 + (257 - 254))
            (listOverwrite [0, 0, 0, 0] 0
              (List.replicate (257 - 254) (List.getD [254, 9] (0 + 1) 0)))
    ∧ decodeScanline [128, 255, 3] 3 2 0 0 [0, 0]
        = decodeScanline [128, 255, 3] 3 2 (0 + 1) 0 [0, 0] := by
  refine ⟨claim_C1_decompressRLE.1 [0, 2, 253, 7] 4 1 (by decide) (by decide),
    claim_C1_decompressRLE.2.1 [2, 5, 6, 7] 4 3 0 0 2 [0, 0, 0]
      (by decide) (by decide) (by decide) (by decide) (by decide) (by decide),
    claim_C1_decompressRLE.2.2.1 [254, 9] 2 4 0 0 254 [0, 0, 0, 0]
      (by decide) (by decide) (by decide) (by decide) (by decide)
      (by decide) (by decide),
    claim_C1_decompressRLE.2.2.2.1 [128, 255, 3] 3 2 0 0 [0, 0]
      (by decide) (by decide) (by decide)⟩

/-- Claim C10: decompressRLE is total on arbitrary (malformed or
truncated) input: it never returns an error and always returns a buffer
of exactly width*height bytes (empty when width or height is zero).
Every input read and output write in the embedding is bounds-checked
(List.getD / List.set). -/
theorem claim_C10_decompressRLE_total (data : List Nat) (width height : Nat) :
    ∃ out, decompressRLE data width height = .ok out ∧
      out.length = width * height :=
  decompressRLE_length data width height

/-! ## Channel cursor resynchronisation — layer.go, parseChannelData

parseChannelData walks the channel table; for each entry it records the
cursor position, decodes or skips the channel payload, and then forces
a corrective seek whenever the position does not equal
start + declared length.  File reads are io.ReadFull, so a successful
read of n bytes advances the cursor by exactly n; the RLE decompression
itself operates on an already-read in-memory buffer and never moves the
cursor.  The embedding below tracks the cursor position under the
claim's assumption that every read and seek succeeds. -/

/-- The verification block at the end of the per-channel loop: whatever
position the codec left the cursor at, a mismatch with the expected
offset triggers a corrective seek to it (layer.go:467-482). -/
def correctedFinishPos (startPos chanLength finishPos : Nat) : Nat :=
  if finishPos ≠ startPos + chanLength then startPos + chanLength
  else finishPos

/-- Cursor position after processing one channel-table entry
(layer.go:395-486).  startPos is the recorded position, chanLength the
declared channel length, compression the 2-byte method read when
chanLength > 2; the trailing correctedFinishPos is the verification
block (layer.go:467-482) that seeks to the expected offset on any
mismatch. -/
def parseOneChannelPos (startPos chanLength compression : Nat) : Nat :=
  if chanLength ≤ 2 then
    startPos + chanLength
  else
    let posAfterCompression := startPos + 2
    let dataLength := chanLength - 2
    let finishPos :=
      match compression with
      | 0 => posAfterCompression + dataLength
      | 1 => posAfterCompression + dataLength
      | _ => posAfterCompression + dataLength
    correctedFinishPos startPos chanLength finishPos

/-- Claim C2: after each channel-table entry, assuming reads and seeks
succeed, the cursor position equals start offset + declared length, for
every compression method and also when the declared length is at most 2;
and the corrective seek forces this for any codec finish position, so a
length mismatch is repaired rather than surfaced. -/
theorem claim_C2_channel_cursor :
    (∀ startPos chanLength compression : Nat,
      parseOneChannelPos startPos chanLength compression
        = startPos + chanLength)
    ∧ (∀ startPos chanLength finishPos : Nat,
      correctedFinishPos startPos chanLength finishPos
        = startPos + chanLength) := by
  constructor
  · intro s l c
    unfold parseOneChannelPos
    by_cases h : l ≤ 2
    · rw [if_pos h]
    · rw [if_neg h]
      rcases c with _ | _ | c <;>
        · show correctedFinishPos s l _ = _
          unfold correctedFinishPos
          split <;> omega
  · intro s l f
    unfold correctedFinishPos
    split <;> omega

/-! ## Layer tree builder — image.go, buildTree

buildTree walks the flat layer array with an explicit stack seeded with
the root node.  A folder-end marker pops the stack top and appends it to
the children of the new top (no-op when only the root remains); a
folder-start marker pushes a fresh group node; any other layer is
appended to the children of the current top.  The final tree is the
root node; stack entries still open at list end are never appended to
any children list. -/

/-- The fields of one flat layer that buildTree consults.  layerInfo is
the additional-layer-information map as (key, payload) pairs. -/
structure FlatLayer where
  name : String
  visible : Bool
  opacity : Nat
  blendModeKey : String
  left : Int
  top : Int
  right : Int
  bottom : Int
  layerInfo : List (String × List Nat)

/-- Lookup in the additional-layer-information map. -/
def lookupInfo (info : List (String × List Nat)) (key : String) :
    Option (List Nat) :=
  (info.find? (fun p => p.1 == key)).map (fun p => p.2)

/-- Layer.IsFolder (layer.go:504-510): the layer carries an lsct or
lsdk section-divider block. -/
def FlatLayer.isFolder (l : FlatLayer) : Bool :=
  (lookupInfo l.layerInfo "lsct").isSome
    || (lookupInfo l.layerInfo "lsdk").isSome

/-- Layer.IsFolderEnd (layer.go:513-530): the section-divider payload
has at least 4 bytes and byte 3 equals 3. -/
def FlatLayer.isFolderEnd (l : FlatLayer) : Bool :=
  if !l.isFolder then false
  else
    match lookupInfo l.layerInfo "lsct" with
    | some d => decide (4 ≤ d.length) && (d.getD 3 0 == 3)
    | none =>
      match lookupInfo l.layerInfo "lsdk" with
      | some d => decide (4 ≤ d.length) && (d.getD 3 0 == 3)
      | none => false

/-- Layer.blendModeString (layer.go:550-586): the fixed key-to-name
table with a TrimSpace fallback. -/
def blendModeString (key : String) : String :=
  if key = "norm" then "normal"
  else if key = "dark" then "darken"
  else if key = "lite" then "lighten"
  else if key = "hue " then "hue"
  else if key = "sat " then "saturation"
  else if key = "colr" then "color"
  else if key = "lum " then "luminosity"
  else if key = "mul " then "multiply"
  else if key = "scrn" then "screen"
  else if key = "diss" then "dissolve"
  else if key = "over" then "overlay"
  else if key = "hLit" then "hard_light"
  else if key = "sLit" then "soft_light"
  else if key = "diff" then "difference"
  else if key = "smud" then "exclusion"
  else if key = "div " then "color_dodge"
  else if key = "idiv" then "color_burn"
  else if key = "lbrn" then "linear_burn"
  else if key = "lddg" then "linear_dodge"
  else if key = "vLit" then "vivid_light"
  else if key = "lLit" then "linear_light"
  else if key = "pLit" then "pin_light"
  else if key = "hMix" then "hard_mix"
  else if key = "lgCl" then "lighter_color"
  else if key = "dkCl" then "darker_color"
  else if key = "fsub" then "subtract"
  else if key = "fdiv" then "divide"
  else key.trim

/-- The scalar fields of a tree node (renderer.go, Node). -/
structure NodeInfo where
  ntype : String
  name : String
  visible : Bool
  opacity : Nat
  blendMode : String
  left : Int
  top : Int
  right : Int
  bottom : Int
deriving DecidableEq

/-- A tree node: scalar fields plus the ordered children list.  The Go
parent pointer is the inverse of the children relation and is not
represented. -/
inductive PNode where
  | mk (info : NodeInfo) (children : List PNode)

/-- Scalar fields of a node. -/
def PNode.info : PNode → NodeInfo
  | .mk i _ => i

/-- Children of a node. -/
def PNode.children : PNode → List PNode
  | .mk _ cs => cs

/-- A stack frame during tree building: the node-to-be's scalar fields
and the children accumulated so far. -/
abbrev Frame := NodeInfo × List PNode

/-- Group node fields built from a folder-start layer
(image.go:484-496). -/
def groupNodeInfo (l : FlatLayer) : NodeInfo :=
  ⟨"group", l.name, l.visible, l.opacity, blendModeString l.blendModeKey,
    l.left, l.top, l.right, l.bottom⟩

/-- Layer node fields built from a plain layer (image.go:502-514). -/
def layerNodeInfo (l : FlatLayer) : NodeInfo :=
  ⟨"layer", l.name, l.visible, l.opacity, blendModeString l.blendModeKey,
    l.left, l.top, l.right, l.bottom⟩

/-- One iteration of the buildTree loop (image.go:472-519), with the
stack top at the head of the list. -/
def buildStep (stack : List Frame) (l : FlatLayer) : List Frame :=
  if l.isFolder then
    if l.isFolderEnd then
      match stack with
      | f :: g :: rest => (g.1, g.2 ++ [PNode.mk f.1 f.2]) :: rest
      | _ => stack
    else (groupNodeInfo l, []) :: stack
  else
    match stack with
    | f :: rest => (f.1, f.2 ++ [PNode.mk (layerNodeInfo l) []]) :: rest
    | [] => []

/-- The root node fields (image.go:457-467). -/
def rootInfo (width height : Nat) : NodeInfo :=
  ⟨"root", "Root", true, 255, "", 0, 0, (width : Int), (height : Int)⟩

/-- buildTree (image.go:456-525): fold the layer list over the stack
seeded with the root frame; the result is the root node, i.e. the
bottom of the stack.  Frames still open above it are dropped. -/
def buildTree (width height : Nat) (layers : List FlatLayer) : PNode :=
  let stack := layers.foldl buildStep [(rootInfo width height, [])]
  match stack.getLast? with
  | some f => PNode.mk f.1 f.2
  | none => PNode.mk (rootInfo width height) []

/-- Number of folder-start markers in a flat layer list. -/
def countStarts (ls : List FlatLayer) : Nat :=
  (ls.filter (fun l => l.isFolder && !l.isFolderEnd)).length

/-- Number of folder-end markers in a flat layer list. -/
def countEnds (ls : List FlatLayer) : Nat :=
  (ls.filter (fun l => l.isFolderEnd)).length

theorem countStarts_cons (l : FlatLayer) (p : List FlatLayer) :
    countStarts (l :: p)
      = cond (l.isFolder && !l.isFolderEnd) 1 0 + countStarts p := by
  unfold countStarts
  rw [List.filter_cons]
  cases h : l.isFolder && !l.isFolderEnd <;> simp [h]
  omega

theorem countEnds_cons (l : FlatLayer) (p : List FlatLayer) :
    countEnds (l :: p)
      = cond l.isFolderEnd 1 0 + countEnds p := by
  unfold countEnds
  rw [List.filter_cons]
  cases h : l.isFolderEnd <;> simp [h]
  omega

theorem countStarts_nil : countStarts [] = 0 := rfl

theorem countEnds_nil : countEnds [] = 0 := rfl

theorem buildStep_ne_nil (s : List Frame) (l : FlatLayer) (h : s ≠ []) :
    buildStep s l ≠ [] := by
  unfold buildStep
  split
  · split
    · rcases s with _ | ⟨a, _ | ⟨b, rest⟩⟩ <;> simp_all
    · simp
  · rcases s with _ | ⟨a, rest⟩ <;> simp_all

theorem foldl_buildStep_ne_nil (ls : List FlatLayer) :
    ∀ s : List Frame, s ≠ [] → List.foldl buildStep s ls ≠ [] := by
  induction ls with
  | nil => intro s h; simpa using h
  | cons l ls ih =>
    intro s h
    rw [List.foldl_cons]
    exact ih _ (buildStep_ne_nil s l h)

/-- While the running prefix never closes more folders than it opened
on top of the frames in extra, the fold only touches extra: the frames
below survive untouched, and at least one frame of extra remains. -/
theorem foldl_buildStep_split (ls : List FlatLayer) :
    ∀ (extra s0 : List Frame),
      (∀ n, n ≤ ls.length →
        countEnds (ls.take n) < extra.length + countStarts (ls.take n)) →
      ∃ extra2 : List Frame, 1 ≤ extra2.length ∧
        List.foldl buildStep (extra ++ s0) ls = extra2 ++ s0 := by
  induction ls with
  | nil =>
    intro extra s0 hbal
    have h0 := hbal 0 (by simp)
    simp only [List.take_zero, countEnds_nil, countStarts_nil] at h0
    exact ⟨extra, by omega, rfl⟩
  | cons l ls ih =>
    intro extra s0 hbal
    have h0 := hbal 0 (by simp)
    simp only [List.take_zero, countEnds_nil, countStarts_nil] at h0
    have hepos : 1 ≤ extra.length := by omega
    rw [List.foldl_cons]
    by_cases hfe : l.isFolderEnd = true
    · have hf : l.isFolder = true := by
        by_contra hnf
        simp only [Bool.not_eq_true] at hnf
        simp [FlatLayer.isFolderEnd, hnf] at hfe
      have h1 := hbal 1 (by simp)
      rw [List.take_succ_cons, List.take_zero, countEnds_cons,
        countStarts_cons] at h1
      simp only [hfe, Bool.not_true, Bool.and_false, cond_true, cond_false,
        countEnds_nil, countStarts_nil] at h1
      have he2 : 2 ≤ extra.length := by omega
      rcases extra with _ | ⟨a, _ | ⟨b, extra1⟩⟩
      · simp at hepos
      · simp at he2
      · have hstep : buildStep ((a :: b :: extra1) ++ s0) l
            = ((b.1, b.2 ++ [PNode.mk a.1 a.2]) :: extra1) ++ s0 := by
          unfold buildStep
          rw [if_pos hf, if_pos hfe]
          rfl
        rw [hstep]
        refine ih ((b.1, b.2 ++ [PNode.mk a.1 a.2]) :: extra1) s0 ?_
        intro n hn
        have hx := hbal (n + 1) (by simpa using hn)
        rw [List.take_succ_cons, countEnds_cons, countStarts_cons] at hx
        simp only [hfe, Bool.not_true, Bool.and_false, cond_true,
          cond_false] at hx
        simp only [List.length_cons] at hx ⊢
        omega
    · by_cases hf : l.isFolder = true
      · have hstep : buildStep (extra ++ s0) l
            = ((groupNodeInfo l, []) :: extra) ++ s0 := by
          unfold buildStep
          rw [if_pos hf, if_neg (by simp [hfe])]
          rfl
        rw [hstep]
        refine ih ((groupNodeInfo l, []) :: extra) s0 ?_
        intro n hn
        have hx := hbal (n + 1) (by simpa using hn)
        rw [List.take_succ_cons, countEnds_cons, countStarts_cons] at hx
        simp only [hfe, hf, Bool.not_false, Bool.and_true, cond_true,
          cond_false] at hx
        simp only [List.length_cons] at hx ⊢
        omega
      · rcases extra with _ | ⟨a, extra1⟩
        · simp at hepos
        · have hstep : buildStep ((a :: extra1) ++ s0) l
              = ((a.1, a.2 ++ [PNode.mk (layerNodeInfo l) []]) :: extra1)
                  ++ s0 := by
            unfold buildStep
            rw [if_neg (by simp [hf])]
            rfl
          rw [hstep]
          refine ih ((a.1, a.2 ++ [PNode.mk (layerNodeInfo l) []]) :: extra1)
            s0 ?_
          intro n hn
          have hx := hbal (n + 1) (by simpa using hn)
          rw [List.take_succ_cons, countEnds_cons, countStarts_cons] at hx
          simp only [hfe, hf, Bool.false_and, cond_false] at hx
          simp only [List.length_cons] at hx ⊢
          omega

/-- A concrete folder-start marker with no matching end: an lsct
section-divider block of type 1 (open folder). -/
def sampleFolderStart : FlatLayer :=
  ⟨"Group 1", true, 255, "norm", 0, 0, 0, 0, [("lsct", [0, 0, 0, 1])]⟩

/-- A concrete plain layer (no section-divider block). -/
def samplePlainLayer : FlatLayer :=
  ⟨"Layer 1", true, 255, "norm", 1, 2, 5, 6, []⟩

/-- Claim C3 counterexample: for the one-element sequence consisting of
a folder-start marker with no matching folder-end, the built tree is
the bare root with no children at all, so the group node pushed for
that start is not reachable from the root — contradicting the claim
that remaining stack entries are implicitly closed at list end. -/
theorem claim_C3_counterexample :
    sampleFolderStart.isFolder = true
    ∧ sampleFolderStart.isFolderEnd = false
    ∧ buildTree 100 100 [sampleFolderStart]
        = PNode.mk (rootInfo 100 100) [] := by
  refine ⟨by decide, by decide, ?_⟩
  rfl

/-- Claim C3 (amended): folder markers that balance attach every node
exactly once under its parent, but a folder-start marker with no
matching folder-end is NOT implicitly closed at list end: the group
node pushed for that start, and every node appended under it, are
dropped — the built tree equals the tree built from the prefix before
the unmatched start.  (The balance condition says no prefix of the
remainder closes more folders than it opens.) -/
theorem claim_C3_unclosed_folder_dropped (width height : Nat)
    (pre : List FlatLayer) (g : FlatLayer) (rest : List FlatLayer)
    (hf : g.isFolder = true) (hfe : g.isFolderEnd = false)
    (hbal : ∀ n, n ≤ rest.length →
      countEnds (rest.take n) ≤ countStarts (rest.take n)) :
    buildTree width height (pre ++ g :: rest)
      = buildTree width height pre := by
  unfold buildTree
  rw [List.foldl_append]
  have hs1 : List.foldl buildStep [(rootInfo width height, [])] pre ≠ [] :=
    foldl_buildStep_ne_nil pre _ (by simp)
  set s1 := List.foldl buildStep [(rootInfo width height, [])] pre with hs1def
  rw [List.foldl_cons]
  have hpush : buildStep s1 g = ((groupNodeInfo g, []) :: []) ++ s1 := by
    unfold buildStep
    rw [if_pos hf, if_neg (by simp [hfe])]
    rfl
  rw [hpush]
  obtain ⟨extra2, _, heq⟩ :=
    foldl_buildStep_split rest [(groupNodeInfo g, [])] s1
      (by intro n hn; have := hbal n hn; simp only [List.length_cons,
        List.length_nil]; omega)
  rw [heq]
  show (match (extra2 ++ s1).getLast? with
    | some f => PNode.mk f.1 f.2
    | none => PNode.mk (rootInfo width height) [])
    = (match s1.getLast? with
      | some f => PNode.mk f.1 f.2
      | none => PNode.mk (rootInfo width height) [])
  rw [List.getLast?_append_of_ne_nil extra2 hs1]

theorem claim_C3_unclosed_folder_dropped_witness :
    buildTree 3 4 ([] ++ sampleFolderStart :: [samplePlainLayer])
      = buildTree 3 4 [] :=
  claim_C3_unclosed_folder_dropped 3 4 [] sampleFolderStart
    [samplePlainLayer] (by decide) (by decide) (by decide)

/-! ## Bottom-up dimension recomputation — renderer.go, UpdateDimensions

UpdateDimensions leaves layer nodes alone, recursively updates all
children first, keeps the root bounds fixed, and sets each group's
bounds to the min/max envelope of its non-empty children (a child is
empty when its width or height is zero), collapsing to the zero
rectangle when no non-empty child exists. -/

/-- Node.IsEmpty (renderer.go:531-534): zero width or zero height. -/
def PNode.isEmptyNode (n : PNode) : Bool :=
  (n.info.right - n.info.left == 0) || (n.info.bottom - n.info.top == 0)

/-- minInt32FromNodes (renderer.go:586-598). -/
def minFromNodes (nodes : List PNode) (sel : PNode → Int) : Int :=
  match nodes with
  | [] => 0
  | x :: xs => xs.foldl (fun m c => if sel c < m then sel c else m) (sel x)

/-- maxInt32FromNodes (renderer.go:601-613). -/
def maxFromNodes (nodes : List PNode) (sel : PNode → Int) : Int :=
  match nodes with
  | [] => 0
  | x :: xs => xs.foldl (fun m c => if m < sel c then sel c else m) (sel x)

mutual

/-- Node.UpdateDimensions (renderer.go:548-583). -/
def updateDimensions : PNode → PNode
  | .mk info cs =>
    if info.ntype = "layer" then .mk info cs
    else
      let cs2 := updateDimensionsList cs
      if info.ntype = "root" then .mk info cs2
      else
        let nonEmpty := cs2.filter (fun c => ! c.isEmptyNode)
        if nonEmpty.length = 0 then
          .mk { info with left := 0, top := 0, right := 0, bottom := 0 } cs2
        else
          .mk { info with
            left := minFromNodes nonEmpty (fun c => c.info.left),
            top := minFromNodes nonEmpty (fun c => c.info.top),
            right := maxFromNodes nonEmpty (fun c => c.info.right),
            bottom := maxFromNodes nonEmpty (fun c => c.info.bottom) } cs2

/-- The child-recursion loop of UpdateDimensions. -/
def updateDimensionsList : List PNode → List PNode
  | [] => []
  | c :: cs => updateDimensions c :: updateDimensionsList cs

end

theorem updateDimensionsList_eq_map (cs : List PNode) :
    updateDimensionsList cs = cs.map updateDimensions := by
  induction cs with
  | nil => rfl
  | cons c cs ih => rw [updateDimensionsList, ih, List.map_cons]

/-- Bounds of a node as a (left, top, right, bottom) quadruple. -/
def PNode.bounds (n : PNode) : Int × Int × Int × Int :=
  (n.info.left, n.info.top, n.info.right, n.info.bottom)

/-- Written from the spec wording: the min/max envelope of the
non-empty children, or the zero rectangle when there is none. -/
def specEnvelope (cs : List PNode) : Int × Int × Int × Int :=
  match cs.filter (fun c => ! c.isEmptyNode) with
  | [] => (0, 0, 0, 0)
  | x :: xs =>
    ((xs.map (fun c => c.info.left)).foldl min x.info.left,
     (xs.map (fun c => c.info.top)).foldl min x.info.top,
     (xs.map (fun c => c.info.right)).foldl max x.info.right,
     (xs.map (fun c => c.info.bottom)).foldl max x.info.bottom)

theorem minFromNodes_foldl (sel : PNode → Int) :
    ∀ (xs : List PNode) (init : Int),
      xs.foldl (fun m c => if sel c < m then sel c else m) init
        = (xs.map sel).foldl min init := by
  intro xs
  induction xs with
  | nil => intro init; rfl
  | cons a xs ih =>
    intro init
    rw [List.foldl_cons, List.map_cons, List.foldl_cons, ih]
    congr 1
    rw [min_def]
    split <;> split <;> omega

theorem maxFromNodes_foldl (sel : PNode → Int) :
    ∀ (xs : List PNode) (init : Int),
      xs.foldl (fun m c => if m < sel c then sel c else m) init
        = (xs.map sel).foldl max init := by
  intro xs
  induction xs with
  | nil => intro init; rfl
  | cons a xs ih =>
    intro init
    rw [List.foldl_cons, List.map_cons, List.foldl_cons, ih]
    congr 1
    rw [max_def]
    split <;> split <;> omega

theorem minFromNodes_cons (x : PNode) (xs : List PNode) (sel : PNode → Int) :
    minFromNodes (x :: xs) sel = (xs.map sel).foldl min (sel x) :=
  minFromNodes_foldl sel xs (sel x)

theorem maxFromNodes_cons (x : PNode) (xs : List PNode) (sel : PNode → Int) :
    maxFromNodes (x :: xs) sel = (xs.map sel).foldl max (sel x) :=
  maxFromNodes_foldl sel xs (sel x)

/-- Characterisation of UpdateDimensions at a non-layer non-root node:
the children are recursively updated and the bounds become the spec's
envelope of the updated children. -/
theorem updateDimensions_group (info : NodeInfo) (cs : List PNode)
    (hL : info.ntype ≠ "layer") (hR : info.ntype ≠ "root") :
    updateDimensions (.mk info cs)
      = .mk { info with
          left := (specEnvelope (cs.map updateDimensions)).1,
          top := (specEnvelope (cs.map updateDimensions)).2.1,
          right := (specEnvelope (cs.map updateDimensions)).2.2.1,
          bottom := (specEnvelope (cs.map updateDimensions)).2.2.2 }
        (cs.map updateDimensions) := by
  rw [updateDimensions, if_neg hL, updateDimensionsList_eq_map, if_neg hR]
  cases hne : (cs.map updateDimensions).filter (fun c => ! c.isEmptyNode) with
  | nil =>
    rw [if_pos (by rfl)]
    unfold specEnvelope
    rw [hne]
  | cons x xs =>
    rw [if_neg (by simp)]
    unfold specEnvelope
    rw [hne]
    rw [minFromNodes_cons, minFromNodes_cons, maxFromNodes_cons,
      maxFromNodes_cons]

/-- Characterisation at a layer node: returned unchanged. -/
theorem updateDimensions_layer (info : NodeInfo) (cs : List PNode)
    (hL : info.ntype = "layer") :
    updateDimensions (.mk info cs) = .mk info cs := by
  rw [updateDimensions, if_pos hL]

/-- Characterisation at the root: bounds kept, children updated. -/
theorem updateDimensions_root (info : NodeInfo) (cs : List PNode)
    (hR : info.ntype = "root") :
    updateDimensions (.mk info cs)
      = .mk info (cs.map updateDimensions) := by
  rw [updateDimensions,
    if_neg (by rw [hR]; intro h; exact absurd h (by decide)),
    updateDimensionsList_eq_map, if_pos hR]

mutual

/-- All nodes of a subtree, the subtree root included. -/
def subtreeNodes : PNode → List PNode
  | .mk info cs => .mk info cs :: subtreeNodesList cs

/-- All nodes of the subtrees of a list of nodes. -/
def subtreeNodesList : List PNode → List PNode
  | [] => []
  | c :: cs => subtreeNodes c ++ subtreeNodesList cs

end

theorem mem_subtreeNodesList (m : PNode) :
    ∀ cs : List PNode,
      m ∈ subtreeNodesList cs ↔ ∃ c ∈ cs, m ∈ subtreeNodes c := by
  intro cs
  induction cs with
  | nil => simp [subtreeNodesList]
  | cons c cs ih =>
    rw [subtreeNodesList]
    simp only [List.mem_append, ih, List.mem_cons]
    constructor
    · rintro (h | ⟨c2, hc2, hm⟩)
      · exact ⟨c, Or.inl rfl, h⟩
      · exact ⟨c2, Or.inr hc2, hm⟩
    · rintro ⟨c2, hc2 | hc2, hm⟩
      · exact Or.inl (hc2 ▸ hm)
      · exact Or.inr ⟨c2, hc2, hm⟩

theorem mem_subtreeNodes_iff (m : PNode) (info : NodeInfo)
    (cs : List PNode) :
    m ∈ subtreeNodes (.mk info cs)
      ↔ m = .mk info cs ∨ ∃ c ∈ cs, m ∈ subtreeNodes c := by
  rw [subtreeNodes, List.mem_cons, mem_subtreeNodesList]

/-- Every layer node of the tree has no children (true of every tree
buildTree produces). -/
def layersChildless (n : PNode) : Prop :=
  ∀ m ∈ subtreeNodes n, m.info.ntype = "layer" → m.children = []

theorem sizeOf_lt_of_mem_children {c : PNode} {info : NodeInfo}
    {cs : List PNode} (hc : c ∈ cs) :
    sizeOf c < sizeOf (PNode.mk info cs) := by
  have h := List.sizeOf_lt_of_mem hc
  simp only [PNode.mk.sizeOf_spec]
  omega

theorem layersChildless_child {info : NodeInfo} {cs : List PNode}
    {c : PNode} (h : layersChildless (.mk info cs)) (hc : c ∈ cs) :
    layersChildless c := by
  intro m hm
  exact h m ((mem_subtreeNodes_iff m info cs).2 (Or.inr ⟨c, hc, hm⟩))

/-- After UpdateDimensions, every group node anywhere in the resulting
tree has the spec envelope of its (already updated) children as its
bounds.  Proved by strong induction on the node size. -/
theorem updateDimensions_groups_sound :
    ∀ (k : Nat) (n : PNode), sizeOf n ≤ k → layersChildless n →
      ∀ m ∈ subtreeNodes (updateDimensions n), m.info.ntype = "group" →
        m.bounds = specEnvelope m.children := by
  intro k
  induction k with
  | zero =>
    intro n hk
    cases n with
    | mk info cs =>
      exfalso
      simp only [PNode.mk.sizeOf_spec] at hk
      omega
  | succ k ih =>
    intro n hk hlc m hm hg
    cases n with
    | mk info cs =>
    by_cases hL : info.ntype = "layer"
    · rw [updateDimensions_layer info cs hL] at hm
      have hcs : cs = [] := by
        have := hlc (.mk info cs)
          ((mem_subtreeNodes_iff _ info cs).2 (Or.inl rfl))
        simpa [PNode.children, PNode.info] using this hL
      subst hcs
      rcases (mem_subtreeNodes_iff m info []).1 hm with rfl | ⟨c, hc, _⟩
      · simp only [PNode.info] at hg hL
        rw [hL] at hg
        exact absurd hg (by decide)
      · simp at hc
    · have hrec : ∀ c ∈ cs,
          ∀ m2 ∈ subtreeNodes (updateDimensions c),
            m2.info.ntype = "group" → m2.bounds = specEnvelope m2.children := by
        intro c hc
        have hsz : sizeOf c ≤ k := by
          have := @sizeOf_lt_of_mem_children c info cs hc
          omega
        exact ih c hsz (layersChildless_child hlc hc)
      by_cases hR : info.ntype = "root"
      · rw [updateDimensions_root info cs hR] at hm
        rcases (mem_subtreeNodes_iff m info _).1 hm with rfl | ⟨c2, hc2, hm2⟩
        · simp only [PNode.info] at hg hR
          rw [hR] at hg
          exact absurd hg (by decide)
        · obtain ⟨c, hc, rfl⟩ := List.mem_map.1 hc2
          exact hrec c hc m hm2 hg
      · rw [updateDimensions_group info cs hL hR] at hm
        rcases (mem_subtreeNodes_iff m _ _).1 hm with rfl | ⟨c2, hc2, hm2⟩
        · simp only [PNode.bounds, PNode.info, PNode.children]
        · obtain ⟨c, hc, rfl⟩ := List.mem_map.1 hc2
          exact hrec c hc m hm2 hg

/-- A non-empty layer node with bounds (450,450)-(550,550). -/
def sampleChild450 : PNode :=
  .mk ⟨"layer", "L", true, 255, "normal", 450, 450, 550, 550⟩ []

/-- A group holding exactly the one non-empty child above. -/
def sampleGroup450 : PNode :=
  .mk ⟨"group", "G", true, 255, "normal", 0, 0, 0, 0⟩ [sampleChild450]

/-- A layer node with zero width (empty). -/
def sampleEmptyChild : PNode :=
  .mk ⟨"layer", "E", true, 255, "normal", 10, 10, 10, 30⟩ []

/-- A group whose only child is empty-bounded. -/
def sampleGroupEmpty : PNode :=
  .mk ⟨"group", "G2", true, 255, "normal", 1, 2, 3, 4⟩ [sampleEmptyChild]

/-- Claim C4: after UpdateDimensions every group node's bounds are the
min/max envelope of its non-empty (updated) children, collapsing to
(0,0,0,0) when no non-empty child exists; layer nodes are returned
unchanged; the root keeps its own bounds; and the concrete instance of
the claim: the group containing one child with bounds (450,450)-(550,550)
reports left 450, top 450, width 100, height 100, while a group with
only empty children collapses to the zero rectangle. -/
theorem claim_C4_updateDimensions :
    (∀ (info : NodeInfo) (cs : List PNode), info.ntype = "group" →
      (updateDimensions (.mk info cs)).bounds
        = specEnvelope ((updateDimensions (.mk info cs)).children))
    ∧ (∀ n : PNode, layersChildless n →
        ∀ m ∈ subtreeNodes (updateDimensions n), m.info.ntype = "group" →
          m.bounds = specEnvelope m.children)
    ∧ (∀ (info : NodeInfo) (cs : List PNode), info.ntype = "layer" →
        updateDimensions (.mk info cs) = .mk info cs)
    ∧ (∀ (info : NodeInfo) (cs : List PNode), info.ntype = "root" →
        (updateDimensions (.mk info cs)).bounds
            = (info.left, info.top, info.right, info.bottom)
          ∧ (updateDimensions (.mk info cs)).children
            = cs.map updateDimensions)
    ∧ ((updateDimensions sampleGroup450).bounds = (450, 450, 550, 550)
        ∧ (updateDimensions sampleGroup450).info.right
            - (updateDimensions sampleGroup450).info.left = 100
        ∧ (updateDimensions sampleGroup450).info.bottom
            - (updateDimensions sampleGroup450).info.top = 100
        ∧ (updateDimensions sampleGroupEmpty).bounds = (0, 0, 0, 0)) := by
  refine ⟨?_, ?_, ?_, ?_, ?_⟩
  · intro info cs hG
    rw [updateDimensions_group info cs (by rw [hG]; decide)
      (by rw [hG]; decide)]
    simp only [PNode.bounds, PNode.info, PNode.children]
  · intro n hlc
    exact updateDimensions_groups_sound (sizeOf n) n (le_refl _) hlc
  · intro info cs hL
    exact updateDimensions_layer info cs hL
  · intro info cs hR
    rw [updateDimensions_root info cs hR]
    exact ⟨rfl, rfl⟩
  · exact ⟨rfl, rfl, rfl, rfl⟩

theorem claim_C4_updateDimensions_witness :
    ((updateDimensions
        (.mk ⟨"group", "G", true, 255, "normal", 0, 0, 0, 0⟩
          [sampleChild450])).bounds
      = specEnvelope ((updateDimensions
          (.mk ⟨"group", "G", true, 255, "normal", 0, 0, 0, 0⟩
            [sampleChild450])).children))
    ∧ ((updateDimensions sampleGroup450).bounds
        = specEnvelope (updateDimensions sampleGroup450).children)
    ∧ (updateDimensions
        (.mk ⟨"layer", "X", true, 255, "normal", 1, 2, 3, 4⟩ [])
        = .mk ⟨"layer", "X", true, 255, "normal", 1, 2, 3, 4⟩ [])
    ∧ ((updateDimensions
        (.mk ⟨"root", "Root", true, 255, "", 0, 0, 9, 9⟩ [sampleChild450])).bounds
        = (0, 0, 9, 9)) := by
  refine ⟨claim_C4_updateDimensions.1 _ [sampleChild450] rfl, ?_, ?_, ?_⟩
  · have hlc : layersChildless sampleGroup450 := by
      intro m hm hl
      rw [sampleGroup450, mem_subtreeNodes_iff] at hm
      rcases hm with rfl | ⟨c, hc, hmc⟩
      · exact absurd hl (by decide)
      · rw [sampleChild450] at hc
        simp only [List.mem_singleton] at hc
        subst hc
        rw [mem_subtreeNodes_iff] at hmc
        rcases hmc with rfl | ⟨c2, hc2, _⟩
        · rfl
        · simp at hc2
    have h := claim_C4_updateDimensions.2.1 sampleGroup450 hlc
    refine h (updateDimensions sampleGroup450) ?_ rfl
    rw [show updateDimensions sampleGroup450
      = .mk ⟨"group", "G", true, 255, "normal", 450, 450, 550, 550⟩
          [updateDimensions sampleChild450] from rfl,
      mem_subtreeNodes_iff]
    exact Or.inl rfl
  · exact claim_C4_updateDimensions.2.2.1 _ [] rfl
  · exact (claim_C4_updateDimensions.2.2.2.1 _ [sampleChild450] rfl).1

/-! ## Layer raster assembly — layer.go, ToImage

ToImage returns nil (no raster) when the layer width or height is zero;
returns a fully transparent raster when the layer has an empty mask;
otherwise assembles one RGBA pixel per position from the decoded
channel planes (ids 0/1/2 for red/green/blue with default 0, id -1 for
alpha with default 255).  The user-mask plane (id -2) is read into a
variable but never used by the pixel loop. -/

/-- An 8-bit RGBA pixel (fields are byte values in any real raster). -/
structure RGBAp where
  r : Nat
  g : Nat
  b : Nat
  a : Nat
deriving DecidableEq

/-- LayerMaskData (layer.go:56-78). -/
structure MaskRect where
  top : Int
  left : Int
  bottom : Int
  right : Int
  defaultColor : Nat
  flags : Nat
deriving DecidableEq

/-- LayerMaskData.Width. -/
def MaskRect.width (m : MaskRect) : Int := m.right - m.left

/-- LayerMaskData.Height. -/
def MaskRect.height (m : MaskRect) : Int := m.bottom - m.top

/-- LayerMaskData.IsEmpty: zero width or zero height. -/
def MaskRect.isEmpty (m : MaskRect) : Bool :=
  m.width == 0 || m.height == 0

/-- The fields of a Layer that ToImage and renderLayer consult.
channels is the decoded channel-plane map as (id, plane) pairs. -/
structure RLayer where
  left : Int
  top : Int
  right : Int
  bottom : Int
  opacity : Nat
  fillOpacity : Option Nat
  blendModeKey : String
  mask : Option MaskRect
  channels : List (Int × List Nat)

/-- Layer.Width as a signed value. -/
def RLayer.widthI (l : RLayer) : Int := l.right - l.left

/-- Layer.Height as a signed value. -/
def RLayer.heightI (l : RLayer) : Int := l.bottom - l.top

/-- Lookup of one decoded channel plane by id (the Go channels map). -/
def channelPlane (l : RLayer) (id : Int) : Option (List Nat) :=
  (l.channels.find? (fun p => p.1 == id)).map (fun p => p.2)

/-- One channel sample: the plane byte at idx when the plane exists and
is long enough, the default otherwise (layer.go:718-731). -/
def planeAt (o : Option (List Nat)) (idx dflt : Nat) : Nat :=
  match o with
  | some d => d.getD idx dflt
  | none => dflt

/-- The pixel loop of ToImage (layer.go:713-739): row-major, index
y*width+x, red/green/blue default 0, alpha default 255. -/
def toImagePixels (l : RLayer) (width height : Nat) : List RGBAp :=
  (List.range height).flatMap (fun y =>
    (List.range width).map (fun x =>
      let idx := y * width + x
      ⟨planeAt (channelPlane l 0) idx 0,
       planeAt (channelPlane l 1) idx 0,
       planeAt (channelPlane l 2) idx 0,
       planeAt (channelPlane l (-1)) idx 255⟩))

/-- Layer.ToImage (layer.go:674-742). -/
def toImage (l : RLayer) : Option (List RGBAp) :=
  if l.widthI = 0 ∨ l.heightI = 0 then none
  else
    match l.mask with
    | some m =>
      if m.isEmpty then
        some (List.replicate (l.widthI.toNat * l.heightI.toNat) ⟨0, 0, 0, 0⟩)
      else some (toImagePixels l l.widthI.toNat l.heightI.toNat)
    | none => some (toImagePixels l l.widthI.toNat l.heightI.toNat)

theorem grid_length {α : Type} (f : Nat → Nat → α) (w : Nat) :
    ∀ h : Nat,
      ((List.range h).flatMap (fun y =>
        (List.range w).map (fun x => f x y))).length = h * w := by
  intro h
  induction h with
  | zero => simp
  | succ k ih =>
    rw [List.range_succ, List.flatMap_append, List.length_append, ih]
    simp [Nat.succ_mul]

theorem grid_getD {α : Type} (f : Nat → Nat → α) (w h x y : Nat) (d : α)
    (hx : x < w) (hy : y < h) :
    ((List.range h).flatMap (fun y =>
      (List.range w).map (fun x => f x y))).getD (y * w + x) d = f x y := by
  induction h with
  | zero => omega
  | succ k ih =>
    rw [List.range_succ, List.flatMap_append]
    by_cases hyk : y < k
    · rw [List.getD_append]
      · exact ih hyk
      · rw [grid_length]
        have : y * w + w ≤ k * w := by
          calc y * w + w = (y + 1) * w := by ring
          _ ≤ k * w := Nat.mul_le_mul_right w hyk
        omega
    · have hyk2 : y = k := by omega
      subst hyk2
      rw [List.getD_append_right]
      · rw [grid_length]
        have hidx : y * w + x - y * w = x := by omega
        rw [hidx]
        simp only [List.flatMap_cons, List.flatMap_nil, List.append_nil]
        rw [List.getD_eq_getElem _ _ (by simpa using hx)]
        simp
      · rw [grid_length]; omega

/-- A layer identical to l except that a user-mask plane (id -2) is
prepended to the channel map. -/
def addMaskPlane (l : RLayer) (md : List Nat) : RLayer :=
  { l with channels := ((-2 : Int), md) :: l.channels }

theorem channelPlane_addMaskPlane (l : RLayer) (md : List Nat) (id : Int)
    (h : id ≠ -2) :
    channelPlane (addMaskPlane l md) id = channelPlane l id := by
  unfold channelPlane addMaskPlane
  rw [List.find?_cons_of_neg]
  simp only [beq_iff_eq]
  omega

theorem toImagePixels_addMaskPlane (l : RLayer) (md : List Nat)
    (width height : Nat) :
    toImagePixels (addMaskPlane l md) width height
      = toImagePixels l width height := by
  unfold toImagePixels
  rw [channelPlane_addMaskPlane l md 0 (by omega),
    channelPlane_addMaskPlane l md 1 (by omega),
    channelPlane_addMaskPlane l md 2 (by omega),
    channelPlane_addMaskPlane l md (-1) (by omega)]

/-- Claim C6: ToImage assembles red/green/blue from planes 0/1/2
(default 0) and alpha from plane -1 (default 255), defaults applying
when a plane is absent or shorter than the pixel index; the user-mask
plane is not baked into the raster (adding one never changes the
output); and a layer carrying an empty mask yields the fully
transparent raster. -/
theorem claim_C6_toImage :
    (∀ (l : RLayer) (m : MaskRect), l.widthI ≠ 0 → l.heightI ≠ 0 →
      l.mask = some m → m.isEmpty = true →
      toImage l
        = some (List.replicate (l.widthI.toNat * l.heightI.toNat)
            ⟨0, 0, 0, 0⟩)
        ∧ ∀ p ∈ (List.replicate (l.widthI.toNat * l.heightI.toNat)
            (⟨0, 0, 0, 0⟩ : RGBAp)), p = ⟨0, 0, 0, 0⟩)
    ∧ (∀ (l : RLayer) (img : List RGBAp) (x y : Nat),
        toImage l = some img →
        (∀ m, l.mask = some m → m.isEmpty = false) →
        x < l.widthI.toNat → y < l.heightI.toNat →
        img.getD (y * l.widthI.toNat + x) ⟨0, 0, 0, 0⟩
          = ⟨planeAt (channelPlane l 0) (y * l.widthI.toNat + x) 0,
             planeAt (channelPlane l 1) (y * l.widthI.toNat + x) 0,
             planeAt (channelPlane l 2) (y * l.widthI.toNat + x) 0,
             planeAt (channelPlane l (-1)) (y * l.widthI.toNat + x) 255⟩)
    ∧ (∀ (l : RLayer) (md : List Nat),
        toImage (addMaskPlane l md) = toImage l) := by
  refine ⟨?_, ?_, ?_⟩
  · intro l m hw hh hm hme
    constructor
    · unfold toImage
      rw [if_neg (by tauto), hm]
      simp [hme]
    · intro p hp
      exact (List.eq_of_mem_replicate hp)
  · intro l img x y himg hmask hx hy
    have hw : l.widthI ≠ 0 := by
      intro h0; rw [h0] at hx; simp at hx
    have hh : l.heightI ≠ 0 := by
      intro h0; rw [h0] at hy; simp at hy
    unfold toImage at himg
    rw [if_neg (by tauto)] at himg
    have himg2 : toImagePixels l l.widthI.toNat l.heightI.toNat = img := by
      cases hm : l.mask with
      | none =>
        simp only [hm] at himg
        exact Option.some.inj himg
      | some m =>
        simp only [hm] at himg
        rw [if_neg (by simp [hmask m hm])] at himg
        exact Option.some.inj himg
    rw [← himg2]
    exact grid_getD
      (fun x y => (⟨planeAt (channelPlane l 0) (y * l.widthI.toNat + x) 0,
        planeAt (channelPlane l 1) (y * l.widthI.toNat + x) 0,
        planeAt (channelPlane l 2) (y * l.widthI.toNat + x) 0,
        planeAt (channelPlane l (-1)) (y * l.widthI.toNat + x) 255⟩ : RGBAp))
      l.widthI.toNat l.heightI.toNat x y ⟨0, 0, 0, 0⟩ hx hy
  · intro l md
    unfold toImage
    have hwi : (addMaskPlane l md).widthI = l.widthI := rfl
    have hhi : (addMaskPlane l md).heightI = l.heightI := rfl
    have hmm : (addMaskPlane l md).mask = l.mask := rfl
    rw [hwi, hhi, hmm,
      toImagePixels_addMaskPlane l md l.widthI.toNat l.heightI.toNat]

/-- A 2-by-1 layer carrying an empty mask (zero mask height). -/
def sampleMaskedLayer : RLayer :=
  ⟨0, 0, 2, 1, 255, none, "norm", some ⟨0, 0, 0, 5, 0, 0⟩,
    [(0, [1, 2]), (-1, [3, 4])]⟩

/-- A 1-by-1 layer with a red plane and an alpha plane, no mask. -/
def samplePixelLayer : RLayer :=
  ⟨0, 0, 1, 1, 255, none, "norm", none, [(0, [7]), (-1, [9])]⟩

theorem claim_C6_toImage_witness :
    (toImage sampleMaskedLayer
        = some (List.replicate
            (sampleMaskedLayer.widthI.toNat * sampleMaskedLayer.heightI.toNat)
            ⟨0, 0, 0, 0⟩)
      ∧ ∀ p ∈ (List.replicate
          (sampleMaskedLayer.widthI.toNat * sampleMaskedLayer.heightI.toNat)
          (⟨0, 0, 0, 0⟩ : RGBAp)), p = ⟨0, 0, 0, 0⟩)
    ∧ ((toImagePixels samplePixelLayer 1 1).getD
          (0 * samplePixelLayer.widthI.toNat + 0) ⟨0, 0, 0, 0⟩
        = ⟨planeAt (channelPlane samplePixelLayer 0)
            (0 * samplePixelLayer.widthI.toNat + 0) 0,
           planeAt (channelPlane samplePixelLayer 1)
            (0 * samplePixelLayer.widthI.toNat + 0) 0,
           planeAt (channelPlane samplePixelLayer 2)
            (0 * samplePixelLayer.widthI.toNat + 0) 0,
           planeAt (channelPlane samplePixelLayer (-1))
            (0 * samplePixelLayer.widthI.toNat + 0) 255⟩)
    ∧ toImage (addMaskPlane samplePixelLayer [128])
        = toImage samplePixelLayer := by
  refine ⟨claim_C6_toImage.1 sampleMaskedLayer ⟨0, 0, 0, 5, 0, 0⟩
      (by decide) (by decide) rfl (by decide), ?_, ?_⟩
  · have h := claim_C6_toImage.2.1 samplePixelLayer
      (toImagePixels samplePixelLayer 1 1) 0 0 rfl
      (fun m hm => Option.noConfusion hm) (by decide) (by decide)
    exact h
  · exact claim_C6_toImage.2.2 samplePixelLayer [128]

/-! ## Per-pixel compositing — renderer.go, renderLayer

renderLayer computes calculatedOpacity = uint8(opacity*fillOpacity/255),
fetches the user-mask plane when the layer has a non-empty mask, and
composites each source pixel: out-of-canvas destinations are skipped;
when a mask plane is present the source alpha is recomputed from the
pixel's document position mapped into mask-local coordinates.  The blend
function itself is selected by GetBlendFunc (embedded separately); the
pass below takes it as a parameter, and always passes it
calculatedOpacity, exactly as the source does.  Go's uint8/uint32
conversions of the 16-bit RGBA() values are written out explicitly. -/

/-- The Go conversion uint8(v16 >> 8) for a channel value c stored 8-bit (RGBA() returns
257*c): (257*c/256) % 256, the identity on bytes. -/
def go8 (c : Nat) : Nat := 257 * c / 256 % 256

/-- Layer.FillOpacity (layer.go:746-751): the parsed iOpa byte, or 255
when absent. -/
def fillOpacityVal (l : RLayer) : Nat :=
  match l.fillOpacity with
  | some v => v
  | none => 255

/-- calculatedOpacity (renderer.go:138):
uint8(uint32(opacity) * uint32(fillOpacity) / 255). -/
def calculatedOpacity (l : RLayer) : Nat :=
  l.opacity * fillOpacityVal l / 255 % 256

/-- The per-pixel mask-alpha recomputation (renderer.go:179-230), on
the 8-bit alpha a8 of the source pixel at layer-raster coordinates
(x, y).  The document position (layer.Left + x, layer.Top + y) is
mapped to mask-local coordinates; outside the mask rectangle the alpha
becomes 0; inside, when the plane reaches the index, alpha becomes
uint8((a16 >> 8) * maskValue / 255); otherwise the 16-bit alpha is
merely truncated back, uint8(257*a8). -/
def applyMaskAlpha (l : RLayer) (m : MaskRect) (maskData : List Nat)
    (x y : Nat) (a8 : Nat) : Nat :=
  let maskWidth := m.width
  let maskHeight := m.height
  let docX : Int := l.left + (x : Int)
  let docY : Int := l.top + (y : Int)
  let maskX := docX - m.left
  let maskY := docY - m.top
  if maskX < 0 ∨ maskWidth ≤ maskX ∨ maskY < 0 ∨ maskHeight ≤ maskY then 0
  else
    let maskIdx := maskY * maskWidth + maskX
    if maskIdx < (maskData.length : Int) then
      257 * a8 / 256 * maskData.getD maskIdx.toNat 0 / 255 % 256
    else 257 * a8 % 256

/-- The mask application on one source pixel (renderer.go:179-230):
runs only when the layer has a non-empty mask and a decoded user-mask
plane (renderer.go:142-152); red/green/blue are round-tripped through
uint8(v16 >> 8). -/
def applyMaskToPixel (l : RLayer) (x y : Nat) (p : RGBAp) : RGBAp :=
  match l.mask with
  | some m =>
    if m.isEmpty = false then
      match channelPlane l (-2) with
      | some md => ⟨go8 p.r, go8 p.g, go8 p.b, applyMaskAlpha l m md x y p.a⟩
      | none => p
    else p
  | none => p

/-- Row-major enumeration of the source-pixel coordinates. -/
def pixCoords (w h : Nat) : List (Nat × Nat) :=
  (List.range h).flatMap (fun y => (List.range w).map (fun x => (x, y)))

/-- One iteration of the compositing loop (renderer.go:156-255): skip
destinations outside the canvas; otherwise blend the (possibly
mask-adjusted) source pixel over the destination with
calculatedOpacity and write the result back. -/
def compositeStep (l : RLayer) (blendFunc : RGBAp → RGBAp → Nat → RGBAp)
    (img : List RGBAp) (w : Nat) (canvasX canvasY : Int) (W H : Nat)
    (cv : Int → Int → RGBAp) (xy : Nat × Nat) : Int → Int → RGBAp :=
  let dstX := canvasX + (xy.1 : Int)
  let dstY := canvasY + (xy.2 : Int)
  if dstX < 0 ∨ dstY < 0 ∨ (W : Int) ≤ dstX ∨ (H : Int) ≤ dstY then cv
  else
    let src0 := img.getD (xy.2 * w + xy.1) ⟨0, 0, 0, 0⟩
    let src := applyMaskToPixel l xy.1 xy.2 src0
    let out := blendFunc src (cv dstX dstY) (calculatedOpacity l)
    fun i j => if i = dstX ∧ j = dstY then out else cv i j

/-- renderLayer (renderer.go:109-259): skip layers with no decoded
channels or no raster; otherwise composite every source pixel at canvas
position (layer origin - subtree-root origin + recursion offset).  The
canvas is modelled as a function from coordinates to pixels; W, H are
its bounds. -/
def renderLayerPass (l : RLayer) (blendFunc : RGBAp → RGBAp → Nat → RGBAp)
    (nodeLeft nodeTop offX offY : Int) (W H : Nat)
    (canvas : Int → Int → RGBAp) : Int → Int → RGBAp :=
  if l.channels.length = 0 then canvas
  else
    match toImage l with
    | none => canvas
    | some img =>
      let canvasX := l.left - nodeLeft + offX
      let canvasY := l.top - nodeTop + offY
      (pixCoords l.widthI.toNat l.heightI.toNat).foldl
        (compositeStep l blendFunc img l.widthI.toNat canvasX canvasY W H)
        canvas

theorem compositeStep_preserves (l : RLayer)
    (blendFunc : RGBAp → RGBAp → Nat → RGBAp) (img : List RGBAp)
    (w : Nat) (canvasX canvasY : Int) (W H : Nat)
    (cv : Int → Int → RGBAp) (xy : Nat × Nat) (i j : Int)
    (hout : i < 0 ∨ j < 0 ∨ (W : Int) ≤ i ∨ (H : Int) ≤ j) :
    compositeStep l blendFunc img w canvasX canvasY W H cv xy i j
      = cv i j := by
  unfold compositeStep
  split
  · rfl
  · rename_i hin
    push_neg at hin
    dsimp only
    rw [if_neg]
    rintro ⟨rfl, rfl⟩
    rcases hout with h | h | h | h <;> omega

theorem foldl_compositeStep_preserves (l : RLayer)
    (blendFunc : RGBAp → RGBAp → Nat → RGBAp) (img : List RGBAp)
    (w : Nat) (canvasX canvasY : Int) (W H : Nat) (i j : Int)
    (hout : i < 0 ∨ j < 0 ∨ (W : Int) ≤ i ∨ (H : Int) ≤ j) :
    ∀ (ps : List (Nat × Nat)) (cv : Int → Int → RGBAp),
      (ps.foldl (compositeStep l blendFunc img w canvasX canvasY W H) cv) i j
        = cv i j := by
  intro ps
  induction ps with
  | nil => intro cv; rfl
  | cons p ps ih =>
    intro cv
    rw [List.foldl_cons, ih]
    exact compositeStep_preserves l blendFunc img w canvasX canvasY W H
      cv p i j hout

/-- Claim C5: renderLayer passes the blend function exactly
floor(opacity * fillOpacity / 255) as opacity, with fillOpacity
defaulting to 255 when no iOpa block was parsed; with a user-mask plane
and a non-empty mask rectangle, a source pixel's alpha becomes 0 when
its document position falls outside the mask rectangle and
alpha * maskValue / 255 when inside (plane long enough); destination
pixels outside the canvas bounds are never written. -/
theorem claim_C5_renderLayer :
    (∀ l : RLayer, l.fillOpacity = none → fillOpacityVal l = 255)
    ∧ (∀ l : RLayer, l.opacity ≤ 255 → fillOpacityVal l ≤ 255 →
        calculatedOpacity l = l.opacity * fillOpacityVal l / 255)
    ∧ (∀ (l : RLayer) (m : MaskRect) (maskData : List Nat) (x y a8 : Nat),
        (l.left + (x : Int) - m.left < 0
          ∨ m.width ≤ l.left + (x : Int) - m.left
          ∨ l.top + (y : Int) - m.top < 0
          ∨ m.height ≤ l.top + (y : Int) - m.top) →
        applyMaskAlpha l m maskData x y a8 = 0)
    ∧ (∀ (l : RLayer) (m : MaskRect) (maskData : List Nat) (x y a8 : Nat),
        a8 ≤ 255 →
        ¬ (l.left + (x : Int) - m.left < 0
          ∨ m.width ≤ l.left + (x : Int) - m.left
          ∨ l.top + (y : Int) - m.top < 0
          ∨ m.height ≤ l.top + (y : Int) - m.top) →
        ((l.top + (y : Int) - m.top) * m.width
            + (l.left + (x : Int) - m.left) < (maskData.length : Int)) →
        maskData.getD ((l.top + (y : Int) - m.top) * m.width
            + (l.left + (x : Int) - m.left)).toNat 0 ≤ 255 →
        applyMaskAlpha l m maskData x y a8
          = a8 * maskData.getD ((l.top + (y : Int) - m.top) * m.width
              + (l.left + (x : Int) - m.left)).toNat 0 / 255)
    ∧ (∀ (l : RLayer) (blendFunc : RGBAp → RGBAp → Nat → RGBAp)
        (nodeLeft nodeTop offX offY : Int) (W H : Nat)
        (canvas : Int → Int → RGBAp) (i j : Int),
        (i < 0 ∨ j < 0 ∨ (W : Int) ≤ i ∨ (H : Int) ≤ j) →
        renderLayerPass l blendFunc nodeLeft nodeTop offX offY W H canvas i j
          = canvas i j) := by
  refine ⟨?_, ?_, ?_, ?_, ?_⟩
  · intro l h
    unfold fillOpacityVal
    rw [h]
  · intro l ho hf
    unfold calculatedOpacity
    have hle : l.opacity * fillOpacityVal l ≤ 255 * 255 :=
      Nat.mul_le_mul ho hf
    have : l.opacity * fillOpacityVal l / 255 ≤ 255 := by
      calc l.opacity * fillOpacityVal l / 255 ≤ 255 * 255 / 255 :=
            Nat.div_le_div_right hle
        _ = 255 := by norm_num
    exact Nat.mod_eq_of_lt (by omega)
  · intro l m maskData x y a8 hout
    unfold applyMaskAlpha
    rw [if_pos hout]
  · intro l m maskData x y a8 ha hin hidx hbyte
    unfold applyMaskAlpha
    rw [if_neg hin, if_pos hidx]
    have h1 : 257 * a8 / 256 = a8 := by omega
    rw [h1]
    have h2 : a8 * maskData.getD ((l.top + (y : Int) - m.top) * m.width
        + (l.left + (x : Int) - m.left)).toNat 0 ≤ 255 * 255 :=
      Nat.mul_le_mul ha hbyte
    have h3 : a8 * maskData.getD ((l.top + (y : Int) - m.top) * m.width
        + (l.left + (x : Int) - m.left)).toNat 0 / 255 ≤ 255 := by
      calc _ ≤ 255 * 255 / 255 := Nat.div_le_div_right h2
        _ = 255 := by norm_num
    exact Nat.mod_eq_of_lt (by omega)
  · intro l blendFunc nodeLeft nodeTop offX offY W H canvas i j hout
    unfold renderLayerPass
    split
    · rfl
    · cases toImage l with
      | none => rfl
      | some img =>
        exact foldl_compositeStep_preserves l blendFunc img _ _ _ W H i j
          hout _ canvas

/-- A layer with opacity 128 and a parsed fill-opacity byte 128. -/
def sampleOpacityLayer : RLayer :=
  ⟨0, 0, 1, 1, 128, some 128, "norm", none, []⟩

theorem claim_C5_renderLayer_witness :
    fillOpacityVal samplePixelLayer = 255
    ∧ calculatedOpacity sampleOpacityLayer = 64
    ∧ applyMaskAlpha samplePixelLayer ⟨0, 10, 1, 12, 0, 0⟩ [100, 200] 0 0 255
        = 0
    ∧ applyMaskAlpha samplePixelLayer ⟨0, 0, 1, 2, 0, 0⟩ [100, 200] 0 0 255
        = 100
    ∧ renderLayerPass samplePixelLayer (fun _ d _ => d) 0 0 0 0 4 4
        (fun _ _ => ⟨9, 9, 9, 9⟩) (-1) 0 = ⟨9, 9, 9, 9⟩ := by
  refine ⟨claim_C5_renderLayer.1 samplePixelLayer rfl, ?_, ?_, ?_, ?_⟩
  · have h := claim_C5_renderLayer.2.1 sampleOpacityLayer
      (by decide) (by decide)
    exact h
  · exact claim_C5_renderLayer.2.2.1 samplePixelLayer ⟨0, 10, 1, 12, 0, 0⟩
      [100, 200] 0 0 255 (by decide)
  · exact claim_C5_renderLayer.2.2.2.1 samplePixelLayer ⟨0, 0, 1, 2, 0, 0⟩
      [100, 200] 0 0 255 (by decide) (by decide) (by decide) (by decide)
  · exact claim_C5_renderLayer.2.2.2.2 samplePixelLayer (fun _ d _ => d)
      0 0 0 0 4 4 (fun _ _ => ⟨9, 9, 9, 9⟩) (-1) 0 (by decide)

/-! ## Blend-mode dispatcher — header.go, GetBlendFunc

GetBlendFunc maps a blend-mode name (4-character key or normalized
lowercase name) to one of the blend functions; unknown names and the
passthru keys map to the normal function; the dissolve keys map to
blendDissolve, which simply calls blendNormal.  The dispatcher is
embedded as a map to the identity of the selected function; blendNormal
and blendDissolve (both integer-exact) are embedded in full. -/

/-- Identity of the blend function the dispatcher selects. -/
inductive BlendKey where
  | normal
  | multiply
  | screen
  | overlay
  | darken
  | lighten
  | colorDodge
  | colorBurn
  | hardLight
  | softLight
  | difference
  | exclusion
  | linearDodge
  | linearBurn
  | linearLight
  | color
  | vividLight
  | pinLight
  | hardMix
  | hue
  | saturation
  | luminosity
  | subtract
  | divide
  | dissolve
  | darkerColor
  | lighterColor
deriving DecidableEq

/-- GetBlendFunc (header.go:177-239), with the passthru keys returning
the normal function and unknown names defaulting to it. -/
def GetBlendFunc (blendMode : String) : BlendKey :=
  if blendMode = "normal" ∨ blendMode = "norm" then .normal
  else if blendMode = "multiply" ∨ blendMode = "mul " then .multiply
  else if blendMode = "screen" ∨ blendMode = "scrn" then .screen
  else if blendMode = "overlay" ∨ blendMode = "over" then .overlay
  else if blendMode = "darken" ∨ blendMode = "dark" then .darken
  else if blendMode = "lighten" ∨ blendMode = "lite" then .lighten
  else if blendMode = "color_dodge" ∨ blendMode = "div " then .colorDodge
  else if blendMode = "color_burn" ∨ blendMode = "idiv" then .colorBurn
  else if blendMode = "hard_light" ∨ blendMode = "hLit" then .hardLight
  else if blendMode = "soft_light" ∨ blendMode = "sLit" then .softLight
  else if blendMode = "difference" ∨ blendMode = "diff" then .difference
  else if blendMode = "exclusion" ∨ blendMode = "smud" then .exclusion
  else if blendMode = "linear_dodge" ∨ blendMode = "lddg" then .linearDodge
  else if blendMode = "linear_burn" ∨ blendMode = "lbrn" then .linearBurn
  else if blendMode = "linear_light" ∨ blendMode = "lLit" then .linearLight
  else if blendMode = "color" ∨ blendMode = "colr" then .color
  else if blendMode = "vivid_light" ∨ blendMode = "vLit" then .vividLight
  else if blendMode = "pin_light" ∨ blendMode = "pLit" then .pinLight
  else if blendMode = "hard_mix" ∨ blendMode = "hMix" then .hardMix
  else if blendMode = "hue" ∨ blendMode = "hue " then .hue
  else if blendMode = "saturation" ∨ blendMode = "sat " then .saturation
  else if blendMode = "luminosity" ∨ blendMode = "lum " then .luminosity
  else if blendMode = "subtract" ∨ blendMode = "fsub" then .subtract
  else if blendMode = "divide" ∨ blendMode = "fdiv" then .divide
  else if blendMode = "dissolve" ∨ blendMode = "diss" then .dissolve
  else if blendMode = "darker_color" ∨ blendMode = "dkCl" then .darkerColor
  else if blendMode = "lighter_color" ∨ blendMode = "lgCl" then .lighterColor
  else if blendMode = "passthru" ∨ blendMode = "pass" then .normal
  else .normal

/-- Every name the GetBlendFunc switch recognizes. -/
def recognizedBlendKeys : List String :=
  ["normal", "norm", "multiply", "mul ", "screen", "scrn",
   "overlay", "over", "darken", "dark", "lighten", "lite",
   "color_dodge", "div ", "color_burn", "idiv", "hard_light", "hLit",
   "soft_light", "sLit", "difference", "diff", "exclusion", "smud",
   "linear_dodge", "lddg", "linear_burn", "lbrn", "linear_light", "lLit",
   "color", "colr", "vivid_light", "vLit", "pin_light", "pLit",
   "hard_mix", "hMix", "hue", "hue ", "saturation", "sat ",
   "luminosity", "lum ", "subtract", "fsub", "divide", "fdiv",
   "dissolve", "diss", "darker_color", "dkCl", "lighter_color", "lgCl",
   "passthru", "pass"]

/-- blendNormal (header.go:242-280): opacity-scaled source-over
compositing in Go uint32 arithmetic; RGBA() of an 8-bit channel c is
257*c, x >> 8 is x / 256, uint8(x) is x % 256. -/
def blendNormal (src dst : RGBAp) (opacity : Nat) : RGBAp :=
  let sr := 257 * src.r
  let sg := 257 * src.g
  let sb := 257 * src.b
  let sa := 257 * src.a
  let dr := 257 * dst.r
  let dg := 257 * dst.g
  let db := 257 * dst.b
  let da := 257 * dst.a
  let alpha := opacity * sa / 255 / 257
  if alpha = 0 then
    ⟨dr / 256 % 256, dg / 256 % 256, db / 256 % 256, da / 256 % 256⟩
  else if alpha = 255 ∧ da = 0 then
    ⟨sr / 256 % 256, sg / 256 % 256, sb / 256 % 256, alpha % 256⟩
  else
    let outAlpha := alpha + da * (255 - alpha) / 255
    if outAlpha = 0 then ⟨0, 0, 0, 0⟩
    else
      let sr8 := sr / 256
      let sg8 := sg / 256
      let sb8 := sb / 256
      let dr8 := dr / 256
      let dg8 := dg / 256
      let db8 := db / 256
      let outRed := (sr8 * alpha + dr8 * da * (255 - alpha) / 255) / outAlpha
      let outGreen := (sg8 * alpha + dg8 * da * (255 - alpha) / 255) / outAlpha
      let outBlue := (sb8 * alpha + db8 * da * (255 - alpha) / 255) / outAlpha
      ⟨outRed % 256, outGreen % 256, outBlue % 256, outAlpha % 256⟩

/-- blendDissolve (header.go:1194-1198): no per-pixel dithering, a
plain call to blendNormal. -/
def blendDissolve (src dst : RGBAp) (opacity : Nat) : RGBAp :=
  blendNormal src dst opacity

/-- Claim C7: any name outside the recognized set selects the normal
blend function, and the dissolve keys select blendDissolve, which
computes exactly what blendNormal computes on every input. -/
theorem claim_C7_blend_dispatch :
    (∀ s : String, s ∉ recognizedBlendKeys → GetBlendFunc s = .normal)
    ∧ GetBlendFunc "dissolve" = .dissolve
    ∧ GetBlendFunc "diss" = .dissolve
    ∧ (∀ (src dst : RGBAp) (opacity : Nat),
        blendDissolve src dst opacity = blendNormal src dst opacity) := by
  refine ⟨?_, by simp [GetBlendFunc], by simp [GetBlendFunc],
    fun src dst opacity => rfl⟩
  intro s h
  simp only [recognizedBlendKeys, List.mem_cons, List.not_mem_nil,
    or_false, not_or] at h
  obtain ⟨h1, h2, h3, h4, h5, h6, h7, h8, h9, h10, h11, h12, h13, h14, h15, h16, h17, h18, h19, h20, h21, h22, h23, h24, h25, h26, h27, h28, h29, h30, h31, h32, h33, h34, h35, h36, h37, h38, h39, h40, h41, h42, h43, h44, h45, h46, h47, h48, h49, h50, h51, h52, h53, h54, h55, h56⟩ := h
  unfold GetBlendFunc
  rw [if_neg (not_or.mpr ⟨h1, h2⟩),
    if_neg (not_or.mpr ⟨h3, h4⟩),
    if_neg (not_or.mpr ⟨h5, h6⟩),
    if_neg (not_or.mpr ⟨h7, h8⟩),
    if_neg (not_or.mpr ⟨h9, h10⟩),
    if_neg (not_or.mpr ⟨h11, h12⟩),
    if_neg (not_or.mpr ⟨h13, h14⟩),
    if_neg (not_or.mpr ⟨h15, h16⟩),
    if_neg (not_or.mpr ⟨h17, h18⟩),
    if_neg (not_or.mpr ⟨h19, h20⟩),
    if_neg (not_or.mpr ⟨h21, h22⟩),
    if_neg (not_or.mpr ⟨h23, h24⟩),
    if_neg (not_or.mpr ⟨h25, h26⟩),
    if_neg (not_or.mpr ⟨h27, h28⟩),
    if_neg (not_or.mpr ⟨h29, h30⟩),
    if_neg (not_or.mpr ⟨h31, h32⟩),
    if_neg (not_or.mpr ⟨h33, h34⟩),
    if_neg (not_or.mpr ⟨h35, h36⟩),
    if_neg (not_or.mpr ⟨h37, h38⟩),
    if_neg (not_or.mpr ⟨h39, h40⟩),
    if_neg (not_or.mpr ⟨h41, h42⟩),
    if_neg (not_or.mpr ⟨h43, h44⟩),
    if_neg (not_or.mpr ⟨h45, h46⟩),
    if_neg (not_or.mpr ⟨h47, h48⟩),
    if_neg (not_or.mpr ⟨h49, h50⟩),
    if_neg (not_or.mpr ⟨h51, h52⟩),
    if_neg (not_or.mpr ⟨h53, h54⟩),
    if_neg (not_or.mpr ⟨h55, h56⟩)]

theorem claim_C7_blend_dispatch_witness :
    GetBlendFunc "bogus mode" = .normal :=
  claim_C7_blend_dispatch.1 "bogus mode" (by
    simp [recognizedBlendKeys])

/-! ## Descriptor value dispatcher — descriptor.go, parseItem

The descriptor parser is a recursive descent over an in-memory byte
slice.  parseItem reads a 4-byte type tag and dispatches; any tag
outside the recognized set is a hard error, and the object-array tag
ObAr always errors (parseObjectArray is unimplemented).  The embedding
reads from a remaining-bytes list; reads fail exactly when fewer bytes
remain than requested (bytes.Reader + io.ReadFull).  The recursion is
bounded by a fuel parameter; the claims settled here concern only the
first dispatch, which consumes no fuel beyond one step. -/

/-- io.ReadFull on the descriptor reader: n bytes or an error. -/
def readBytesD (n : Nat) (s : List Nat) :
    Except String (List Nat × List Nat) :=
  if n ≤ s.length then .ok (s.take n, s.drop n)
  else .error "unexpected EOF"

/-- Big-endian 32-bit value of 4 bytes. -/
def be32 (l : List Nat) : Nat :=
  ((l.getD 0 0 * 256 + l.getD 1 0) * 256 + l.getD 2 0) * 256 + l.getD 3 0

/-- int32 reinterpretation of a 32-bit value. -/
def asInt32 (v : Nat) : Int :=
  if v < 2147483648 then (v : Int) else (v : Int) - 4294967296

/-- int64 reinterpretation of a 64-bit value. -/
def asInt64 (v : Nat) : Int :=
  if v < 9223372036854775808 then (v : Int)
  else (v : Int) - 18446744073709551616

/-- Big-endian value of an 8-byte list. -/
def be64 (l : List Nat) : Nat :=
  be32 (l.take 4) * 4294967296 + be32 (l.drop 4)

/-- ASCII bytes of a literal (Go string constants). -/
def bytesOfAscii (s : String) : List Nat := s.data.map Char.toNat

/-- Big-endian 16-bit code units of a UTF-16 byte sequence. -/
def pairsToUnits : List Nat → List Nat
  | a :: b :: rest => (a * 256 + b) :: pairsToUnits rest
  | _ => []

/-- A parsed descriptor value (the dynamically-typed interface values
of the Go parser, as a closed sum). -/
inductive DVal where
  | vBool (b : Bool)
  | vDouble (raw : List Nat)
  | vInt (v : Int)
  | vLargeInt (v : Int)
  | vText (units : List Nat)
  | vClass (name : List Nat) (id : List Nat)
  | vEnum (ty : List Nat) (id : List Nat)
  | vAlias (data : List Nat)
  | vList (items : List DVal)
  | vRaw (data : List Nat)
  | vRef (items : List (List Nat × DVal))
  | vUnitD (unitId : List Nat) (unitName : String) (raw : List Nat)
  | vUnitF (unitId : List Nat) (unitName : String) (raw : List Nat)
  | vDescr (clsName clsId : List Nat) (entries : List (List Nat × DVal))
  | vProp (clsName clsId : List Nat) (id : List Nat)
  | vEnumRef (clsName clsId : List Nat) (ty v : List Nat)

/-- parseID (descriptor.go:80-101): 4-byte length, then either a
4-byte code (length 0) or that many raw bytes. -/
def parseID (s : List Nat) : Except String (List Nat × List Nat) := do
  let (lenB, s) ← readBytesD 4 s
  let length := be32 lenB
  if length = 0 then readBytesD 4 s
  else readBytesD length s

/-- readUnicodeString (descriptor.go:433-457): 4-byte unit count, then
2 bytes per unit (the byte count wraps in uint32 as in Go). -/
def readUnicodeStringD (s : List Nat) :
    Except String (List Nat × List Nat) := do
  let (lenB, s) ← readBytesD 4 s
  let length := be32 lenB
  if length = 0 then return ([], s)
  else
    let (buf, s) ← readBytesD (length * 2 % 4294967296) s
    return (pairsToUnits buf, s)

/-- parseClass (descriptor.go:59-77): unicode name + id. -/
def parseClassD (s : List Nat) :
    Except String ((List Nat × List Nat) × List Nat) := do
  let (name, s) ← readUnicodeStringD s
  let (id, s) ← parseID s
  return ((name, id), s)

/-- parseEnum (descriptor.go:202-218). -/
def parseEnumD (s : List Nat) : Except String (DVal × List Nat) := do
  let (ty, s) ← parseID s
  let (v, s) ← parseID s
  return (.vEnum ty v, s)

/-- parseAlias (descriptor.go:221-233): 4-byte length + raw bytes. -/
def parseAliasD (s : List Nat) : Except String (DVal × List Nat) := do
  let (lenB, s) ← readBytesD 4 s
  let (data, s) ← readBytesD (be32 lenB) s
  return (.vAlias data, s)

/-- parseRawData (descriptor.go:262-274): 4-byte length + raw bytes. -/
def parseRawDataD (s : List Nat) : Except String (DVal × List Nat) := do
  let (lenB, s) ← readBytesD 4 s
  let (data, s) ← readBytesD (be32 lenB) s
  return (.vRaw data, s)

/-- The unit-code table (descriptor.go:371-380), with the Go fallback
to "Unknown" for unresolved codes. -/
def unitName (id : List Nat) : String :=
  if id = bytesOfAscii "#Ang" then "Angle"
  else if id = bytesOfAscii "#Rsl" then "Density"
  else if id = bytesOfAscii "#Rlt" then "Distance"
  else if id = bytesOfAscii "#Nne" then "None"
  else if id = bytesOfAscii "#Prc" then "Percent"
  else if id = bytesOfAscii "#Pxl" then "Pixels"
  else if id = bytesOfAscii "#Mlm" then "Millimeters"
  else if id = bytesOfAscii "#Pnt" then "Points"
  else "Unknown"

/-- parseUnitDouble (descriptor.go:383-405): 4-byte unit code + 8-byte
IEEE754 value kept as raw bytes. -/
def parseUnitDoubleD (s : List Nat) : Except String (DVal × List Nat) := do
  let (uid, s) ← readBytesD 4 s
  let (raw, s) ← readBytesD 8 s
  return (.vUnitD uid (unitName uid) raw, s)

/-- parseUnitFloat (descriptor.go:408-430): 4-byte unit code + 4-byte
IEEE754 value kept as raw bytes. -/
def parseUnitFloatD (s : List Nat) : Except String (DVal × List Nat) := do
  let (uid, s) ← readBytesD 4 s
  let (raw, s) ← readBytesD 4 s
  return (.vUnitF uid (unitName uid) raw, s)

/-- parseProperty (descriptor.go:327-343). -/
def parsePropertyD (s : List Nat) : Except String (DVal × List Nat) := do
  let (cls, s) ← parseClassD s
  let (id, s) ← parseID s
  return (.vProp cls.1 cls.2 id, s)

/-- parseEnumReference (descriptor.go:346-368). -/
def parseEnumReferenceD (s : List Nat) : Except String (DVal × List Nat) := do
  let (cls, s) ← parseClassD s
  let (ty, s) ← parseID s
  let (v, s) ← parseID s
  return (.vEnumRef cls.1 cls.2 ty v, s)

/-- The per-item loop of parseReference (descriptor.go:277-324). -/
def parseRefItems : Nat → List Nat →
    Except String (List (List Nat × DVal) × List Nat)
  | 0, s => .ok ([], s)
  | k + 1, s => do
    let (tagB, s) ← readBytesD 4 s
    let (v, s) ←
      if tagB = bytesOfAscii "prop" then parsePropertyD s
      else if tagB = bytesOfAscii "Clss" then
        (parseClassD s).map (fun r => (.vClass r.1.1 r.1.2, r.2))
      else if tagB = bytesOfAscii "Enmr" then parseEnumReferenceD s
      else if tagB = bytesOfAscii "Idnt" then
        (readBytesD 4 s).map (fun r => (.vInt (asInt32 (be32 r.1)), r.2))
      else if tagB = bytesOfAscii "indx" then
        (readBytesD 4 s).map (fun r => (.vInt (asInt32 (be32 r.1)), r.2))
      else if tagB = bytesOfAscii "name" then
        (readUnicodeStringD s).map (fun r => (.vText r.1, r.2))
      else if tagB = bytesOfAscii "rele" then
        (readBytesD 4 s).map (fun r => (.vInt (asInt32 (be32 r.1)), r.2))
      else .error "unknown reference type"
    let (rest, s) ← parseRefItems k s
    return ((tagB, v) :: rest, s)

mutual

/-- The dispatch of parseItem (descriptor.go:131-166) on an
already-read 4-byte tag. -/
def parseItemTag : Nat → List Nat → List Nat →
    Except String (DVal × List Nat)
  | fuel, tag, s =>
    if tag = bytesOfAscii "bool" then
      (readBytesD 1 s).map (fun r => (.vBool (r.1.getD 0 0 ≠ 0), r.2))
    else if tag = bytesOfAscii "type" ∨ tag = bytesOfAscii "GlbC" then
      (parseClassD s).map (fun r => (.vClass r.1.1 r.1.2, r.2))
    else if tag = bytesOfAscii "Objc" ∨ tag = bytesOfAscii "GlbO" then
      parseDescr fuel s
    else if tag = bytesOfAscii "doub" then
      (readBytesD 8 s).map (fun r => (.vDouble r.1, r.2))
    else if tag = bytesOfAscii "enum" then parseEnumD s
    else if tag = bytesOfAscii "alis" then parseAliasD s
    else if tag = bytesOfAscii "long" then
      (readBytesD 4 s).map (fun r => (.vInt (asInt32 (be32 r.1)), r.2))
    else if tag = bytesOfAscii "comp" then
      (readBytesD 8 s).map (fun r => (.vLargeInt (asInt64 (be64 r.1)), r.2))
    else if tag = bytesOfAscii "VlLs" then
      match readBytesD 4 s with
      | .error e => .error e
      | .ok (cntB, s2) =>
        match parseListItems fuel (be32 cntB) s2 with
        | .error e => .error e
        | .ok (items, s3) => .ok (.vList items, s3)
    else if tag = bytesOfAscii "ObAr" then
      .error "object array parsing not implemented"
    else if tag = bytesOfAscii "tdta" then parseRawDataD s
    else if tag = bytesOfAscii "obj " then
      match readBytesD 4 s with
      | .error e => .error e
      | .ok (cntB, s2) =>
        match parseRefItems (be32 cntB) s2 with
        | .error e => .error e
        | .ok (items, s3) => .ok (.vRef items, s3)
    else if tag = bytesOfAscii "TEXT" then
      (readUnicodeStringD s).map (fun r => (.vText r.1, r.2))
    else if tag = bytesOfAscii "UntF" then parseUnitDoubleD s
    else if tag = bytesOfAscii "UnFl" then parseUnitFloatD s
    else .error "unknown descriptor type"

/-- parseItem (descriptor.go:121-166): read the 4-byte tag unless one
was handed in, then dispatch. -/
def parseItem : Nat → Option (List Nat) → List Nat →
    Except String (DVal × List Nat)
  | 0, _, _ => .error "recursion limit"
  | fuel + 1, some t, s => parseItemTag fuel t s
  | fuel + 1, none, s =>
    match readBytesD 4 s with
    | .error e => .error e
    | .ok (tag, s2) => parseItemTag fuel tag s2

/-- DescriptorParser.Parse (descriptor.go:30-56): class, 4-byte item
count, then that many key/value pairs. -/
def parseDescr : Nat → List Nat → Except String (DVal × List Nat)
  | 0, _ => .error "recursion limit"
  | fuel + 1, s =>
    match parseClassD s with
    | .error e => .error e
    | .ok (cls, s2) =>
      match readBytesD 4 s2 with
      | .error e => .error e
      | .ok (numB, s3) =>
        match parseKeyItems fuel (be32 numB) s3 with
        | .error e => .error e
        | .ok (entries, s4) => .ok (.vDescr cls.1 cls.2 entries, s4)

/-- The key/value loop of Parse (descriptor.go:47-53) with
parseKeyItem (descriptor.go:104-118). -/
def parseKeyItems : Nat → Nat → List Nat →
    Except String (List (List Nat × DVal) × List Nat)
  | _, 0, s => .ok ([], s)
  | 0, _ + 1, _ => .error "recursion limit"
  | fuel + 1, k + 1, s =>
    match parseID s with
    | .error e => .error e
    | .ok (key, s2) =>
      match parseItem fuel none s2 with
      | .error e => .error e
      | .ok (v, s3) =>
        match parseKeyItems fuel k s3 with
        | .error e => .error e
        | .ok (rest, s4) => .ok ((key, v) :: rest, s4)

/-- The item loop of parseList (descriptor.go:236-252). -/
def parseListItems : Nat → Nat → List Nat →
    Except String (List DVal × List Nat)
  | _, 0, s => .ok ([], s)
  | 0, _ + 1, _ => .error "recursion limit"
  | fuel + 1, k + 1, s =>
    match parseItem fuel none s with
    | .error e => .error e
    | .ok (v, s2) =>
      match parseListItems fuel k s2 with
      | .error e => .error e
      | .ok (rest, s3) => .ok (v :: rest, s3)

end

/-- The 4-byte tags the parseItem switch recognizes (ObAr included,
though it always errors). -/
def recognizedDescriptorTags : List (List Nat) :=
  [bytesOfAscii "bool", bytesOfAscii "type", bytesOfAscii "GlbC",
   bytesOfAscii "Objc", bytesOfAscii "GlbO", bytesOfAscii "doub",
   bytesOfAscii "enum", bytesOfAscii "alis", bytesOfAscii "long",
   bytesOfAscii "comp", bytesOfAscii "VlLs", bytesOfAscii "ObAr",
   bytesOfAscii "tdta", bytesOfAscii "obj ", bytesOfAscii "TEXT",
   bytesOfAscii "UntF", bytesOfAscii "UnFl"]

/-- Claim C8: the descriptor value dispatcher errors on every 4-byte
type tag outside the recognized set, and the object-array tag ObAr
always errors, for every input byte sequence and any recursion budget.
-/
theorem claim_C8_descriptor_dispatch :
    (∀ (fuel : Nat) (tag s : List Nat), tag ∉ recognizedDescriptorTags →
      parseItemTag fuel tag s = .error "unknown descriptor type")
    ∧ (∀ (fuel : Nat) (s : List Nat), 4 ≤ s.length →
        s.take 4 ∉ recognizedDescriptorTags →
        parseItem (fuel + 1) none s = .error "unknown descriptor type")
    ∧ (∀ (fuel : Nat) (rest : List Nat),
        parseItem (fuel + 1) none (bytesOfAscii "ObAr" ++ rest)
          = .error "object array parsing not implemented") := by
  have hbase : ∀ (fuel : Nat) (tag s : List Nat),
      tag ∉ recognizedDescriptorTags →
      parseItemTag fuel tag s = .error "unknown descriptor type" := by
    intro fuel tag s h
    simp only [recognizedDescriptorTags, List.mem_cons, List.not_mem_nil,
      or_false, not_or] at h
    obtain ⟨h1, h2, h3, h4, h5, h6, h7, h8, h9, h10, h11, h12, h13, h14, h15, h16, h17⟩ := h
    unfold parseItemTag
    rw [if_neg h1,
      if_neg (not_or.mpr ⟨h2, h3⟩),
      if_neg (not_or.mpr ⟨h4, h5⟩),
      if_neg h6,
      if_neg h7,
      if_neg h8,
      if_neg h9,
      if_neg h10,
      if_neg h11,
      if_neg h12,
      if_neg h13,
      if_neg h14,
      if_neg h15,
      if_neg h16,
      if_neg h17]
  have hobar : ∀ (fuel : Nat) (s : List Nat),
      parseItemTag fuel (bytesOfAscii "ObAr") s
        = .error "object array parsing not implemented" := by
    intro fuel s
    unfold parseItemTag
    rw [if_neg (by decide),
      if_neg (by decide),
      if_neg (by decide),
      if_neg (by decide),
      if_neg (by decide),
      if_neg (by decide),
      if_neg (by decide),
      if_neg (by decide),
      if_neg (by decide),
      if_pos rfl]
  refine ⟨hbase, ?_, ?_⟩
  · intro fuel s hlen h
    rw [parseItem]
    unfold readBytesD
    rw [if_pos hlen]
    exact hbase fuel (s.take 4) (s.drop 4) h
  · intro fuel rest
    rw [parseItem]
    unfold readBytesD
    rw [if_pos (by simp [bytesOfAscii])]
    have htake : (bytesOfAscii "ObAr" ++ rest).take 4 = bytesOfAscii "ObAr" := by
      rw [List.take_left']
      rfl
    rw [htake]
    exact hobar fuel _

theorem claim_C8_descriptor_dispatch_witness :
    parseItemTag 0 [0, 0, 0, 0] [] = .error "unknown descriptor type"
    ∧ parseItem 1 none [1, 2, 3, 4, 5] = .error "unknown descriptor type"
    ∧ parseItem 1 none (bytesOfAscii "ObAr" ++ [9])
        = .error "object array parsing not implemented" :=
  ⟨claim_C8_descriptor_dispatch.1 0 [0, 0, 0, 0] [] (by decide),
   claim_C8_descriptor_dispatch.2.1 0 [1, 2, 3, 4, 5] (by decide) (by decide),
   claim_C8_descriptor_dispatch.2.2 0 [9]⟩

/-! ## Document header parser — header.go, Header.Parse

Header.Parse validates the 4-byte magic and the 2-byte version, skips 6
reserved bytes, reads channel count, rows, cols, depth and mode, then
skips the length-prefixed color-mode data block without decoding it.
Reads are io.ReadFull (fail when short); Skip is a relative seek and
always succeeds, modelled by List.drop. -/

/-- Big-endian 16-bit value of 2 bytes. -/
def be16 (l : List Nat) : Nat := l.getD 0 0 * 256 + l.getD 1 0

/-- The parsed header fields (header.go:8-17). -/
structure HeaderS where
  sig : List Nat
  version : Nat
  channels : Nat
  rows : Nat
  cols : Nat
  depth : Nat
  mode : Nat
deriving DecidableEq

/-- Header.Parse (header.go:92-165).  Returns the header and the
remaining input (the cursor after the color-mode data block). -/
def headerParse (s : List Nat) : Except String (HeaderS × List Nat) :=
  match readBytesD 4 s with
  | .error e => .error e
  | .ok (sigB, s1) =>
    if sigB ≠ bytesOfAscii "8BPS" then .error "invalid PSD signature"
    else
      match readBytesD 2 s1 with
      | .error e => .error e
      | .ok (verB, s2) =>
        if be16 verB ≠ 1 ∧ be16 verB ≠ 2 then
          .error "unsupported PSD version"
        else
          match readBytesD 2 (s2.drop 6) with
          | .error e => .error e
          | .ok (chB, s4) =>
            match readBytesD 4 s4 with
            | .error e => .error e
            | .ok (rowsB, s5) =>
              match readBytesD 4 s5 with
              | .error e => .error e
              | .ok (colsB, s6) =>
                match readBytesD 2 s6 with
                | .error e => .error e
                | .ok (depthB, s7) =>
                  match readBytesD 2 s7 with
                  | .error e => .error e
                  | .ok (modeB, s8) =>
                    match readBytesD 4 s8 with
                    | .error e => .error e
                    | .ok (lenB, s9) =>
                      .ok (⟨sigB, be16 verB, be16 chB, be32 rowsB,
                        be32 colsB, be16 depthB, be16 modeB⟩,
                        s9.drop (be32 lenB))

theorem readBytesD_ok (n : Nat) (s : List Nat) (h : n ≤ s.length) :
    readBytesD n s = .ok (s.take n, s.drop n) := by
  unfold readBytesD
  rw [if_pos h]

/-- Claim C9: Header.Parse errors on a wrong magic and on a version
outside 1 or 2; with valid magic and version and enough bytes it
succeeds, stores every field exactly as read, and leaves the cursor
right after the skipped color-mode data block. -/
theorem claim_C9_headerParse :
    (∀ s : List Nat, 4 ≤ s.length → s.take 4 ≠ bytesOfAscii "8BPS" →
      headerParse s = .error "invalid PSD signature")
    ∧ (∀ s : List Nat, 6 ≤ s.length → s.take 4 = bytesOfAscii "8BPS" →
        be16 ((s.drop 4).take 2) ≠ 1 → be16 ((s.drop 4).take 2) ≠ 2 →
        headerParse s = .error "unsupported PSD version")
    ∧ (∀ s : List Nat, s.take 4 = bytesOfAscii "8BPS" →
        (be16 ((s.drop 4).take 2) = 1 ∨ be16 ((s.drop 4).take 2) = 2) →
        30 + be32 ((s.drop 26).take 4) ≤ s.length →
        headerParse s
          = .ok (⟨bytesOfAscii "8BPS",
              be16 ((s.drop 4).take 2),
              be16 ((s.drop 12).take 2),
              be32 ((s.drop 14).take 4),
              be32 ((s.drop 18).take 4),
              be16 ((s.drop 22).take 2),
              be16 ((s.drop 24).take 2)⟩,
              s.drop (30 + be32 ((s.drop 26).take 4)))) := by
  refine ⟨?_, ?_, ?_⟩
  · intro s hlen hsig
    unfold headerParse
    rw [readBytesD_ok 4 s hlen]
    dsimp only
    rw [if_pos hsig]
  · intro s hlen hsig hv1 hv2
    unfold headerParse
    rw [readBytesD_ok 4 s (by omega)]
    dsimp only
    rw [if_neg (by simp [hsig]), readBytesD_ok 2 (s.drop 4) (by simp; omega)]
    dsimp only
    rw [if_pos ⟨hv1, hv2⟩]
  · intro s hsig hver hlen
    unfold headerParse
    rw [readBytesD_ok 4 s (by omega)]
    dsimp only
    rw [if_neg (by simp [hsig]), readBytesD_ok 2 (s.drop 4) (by simp; omega)]
    dsimp only
    rw [if_neg (by tauto)]
    rw [show ((s.drop 4).drop 2).drop 6 = s.drop 12 by
      simp [List.drop_drop]]
    rw [readBytesD_ok 2 (s.drop 12) (by simp; omega)]
    dsimp only
    rw [show (s.drop 12).drop 2 = s.drop 14 by simp [List.drop_drop]]
    rw [readBytesD_ok 4 (s.drop 14) (by simp; omega)]
    dsimp only
    rw [show (s.drop 14).drop 4 = s.drop 18 by simp [List.drop_drop]]
    rw [readBytesD_ok 4 (s.drop 18) (by simp; omega)]
    dsimp only
    rw [show (s.drop 18).drop 4 = s.drop 22 by simp [List.drop_drop]]
    rw [readBytesD_ok 2 (s.drop 22) (by simp; omega)]
    dsimp only
    rw [show (s.drop 22).drop 2 = s.drop 24 by simp [List.drop_drop]]
    rw [readBytesD_ok 2 (s.drop 24) (by simp; omega)]
    dsimp only
    rw [show (s.drop 24).drop 2 = s.drop 26 by simp [List.drop_drop]]
    rw [readBytesD_ok 4 (s.drop 26) (by simp; omega)]
    dsimp only
    rw [show (s.drop 26).drop 4 = s.drop 30 by simp [List.drop_drop]]
    rw [show (s.drop 30).drop (be32 ((s.drop 26).take 4))
        = s.drop (30 + be32 ((s.drop 26).take 4)) by
      rw [List.drop_drop]]
    rw [hsig]

theorem claim_C9_headerParse_witness :
    (headerParse [9, 9, 9, 9, 0] = .error "invalid PSD signature")
    ∧ (headerParse (bytesOfAscii "8BPS" ++ [0, 7, 0, 0])
        = .error "unsupported PSD version")
    ∧ (headerParse (bytesOfAscii "8BPS"
          ++ [0, 1, 0, 0, 0, 0, 0, 0, 0, 3, 0, 0, 2, 88, 0, 0, 3, 132,
              0, 8, 0, 3, 0, 0, 0, 1, 42])
        = .ok (⟨bytesOfAscii "8BPS", 1, 3, 600, 900, 8, 3⟩, [])) := by
  have base := bytesOfAscii "8BPS"
  refine ⟨claim_C9_headerParse.1 [9, 9, 9, 9, 0] (by decide) (by decide),
    claim_C9_headerParse.2.1 (bytesOfAscii "8BPS" ++ [0, 7, 0, 0])
      (by decide) (by decide) (by decide) (by decide), ?_⟩
  exact claim_C9_headerParse.2.2 _ (by decide) (by decide) (by decide)

end Psd
